import Mathlib

/-!
Verification of the generator-configuration model in
`pkg/model/generator_config.go`.

The Go file declares the configuration struct hierarchy (GeneratorConfig,
IgnoreSpec, ResourceGeneratorConfig, UnpackAttributesMapConfig,
FieldGeneratorConfig, ExceptionsConfig, RenamesConfig,
OperationRenamesConfig, ListOperationConfig) together with the loader
`NewGeneratorConfig`, which reads a file and deserializes it with
`yaml.Unmarshal` (ghodss/yaml: YAML is converted to JSON and decoded by
encoding/json following the struct tags).

The struct hierarchy below is translated directly from the source.  The
deserializer itself lives outside this repository, so it is modelled from
the spec and from the documented semantics of the JSON decoder that the
struct tags select: documents are embedded as already-parsed trees
(`Yaml`), Go maps and slices as lists, Go pointers as `Option`.  A JSON
null leaves booleans and strings unchanged and resets maps, slices and
pointers to their nil form; unknown object keys are skipped; integer map
keys are parsed from decimal strings; any type mismatch makes the whole
load fail.
-/

/-- Modelled from the spec: a parsed structured-text document node (the
YAML document after conversion to JSON form, so object keys are strings
and the scalars the schema uses are null, booleans, integers and
strings). An empty file parses to the null document. -/
inductive Yaml where
  | null : Yaml
  | bool (b : Bool) : Yaml
  | int (n : Int) : Yaml
  | str (s : String) : Yaml
  | arr (items : List Yaml) : Yaml
  | obj (entries : List (String × Yaml)) : Yaml

/-- FieldGeneratorConfig contains instructions to the code generator about
how to interpret the value of an Attribute and how to map it to a CRD's
Spec or Status field. -/
structure FieldGeneratorConfig where
  IsReadOnly : Bool
  ContainsOwnerAccountID : Bool
  deriving DecidableEq, Repr

/-- UnpackAttributesMapConfig informs the code generator that the API
follows a pattern of using an "Attributes" map that contains real,
schema'd fields of the primary resource. `Fields` is keyed by the
original attribute key. -/
structure UnpackAttributesMapConfig where
  Fields : List (String × FieldGeneratorConfig)
  deriving DecidableEq, Repr

/-- ExceptionsConfig maps an HTTP status code to the name of the
exception shape corresponding to that status code for this resource. -/
structure ExceptionsConfig where
  Codes : List (Int × String)
  deriving DecidableEq, Repr

/-- OperationRenamesConfig contains instructions on how to rename fields
in an Operation's input and output payload shapes. -/
structure OperationRenamesConfig where
  InputFields : List (String × String)
  OutputFields : List (String × String)
  deriving DecidableEq, Repr

/-- RenamesConfig contains instructions on how to rename fields in
various Operation payloads; `Operations` is keyed by Operation ID and its
values are pointers in the source, hence `Option` here. -/
structure RenamesConfig where
  Operations : List (String × Option OperationRenamesConfig)
  deriving DecidableEq, Repr

/-- ListOperationConfig instructs the generated code to filter the
results of a List operation using the named match fields. -/
structure ListOperationConfig where
  MatchFields : List String
  deriving DecidableEq, Repr

/-- ResourceGeneratorConfig represents instructions for a particular
CRD/resource; every field is a pointer in the source (nil when the
corresponding key is absent), hence `Option` here. -/
structure ResourceGeneratorConfig where
  NameField : Option String
  UnpackAttributesMapConfig : Option UnpackAttributesMapConfig
  Exceptions : Option ExceptionsConfig
  Renames : Option RenamesConfig
  ListOperation : Option ListOperationConfig
  deriving DecidableEq, Repr

/-- IgnoreSpec represents instructions to ignore operations, resources
and shapes on an AWS service API. -/
structure IgnoreSpec where
  Operations : List String
  ResourceNames : List String
  ShapeNames : List String
  deriving DecidableEq, Repr

/-- GeneratorConfig represents instructions to the ACK code generator for
a particular AWS service API. -/
structure GeneratorConfig where
  Resources : List (String × ResourceGeneratorConfig)
  Ignore : IgnoreSpec
  deriving DecidableEq, Repr

/-- The Go zero value of FieldGeneratorConfig. -/
def FieldGeneratorConfig.zero : FieldGeneratorConfig := ⟨false, false⟩

/-- The Go zero value of UnpackAttributesMapConfig (nil map). -/
def UnpackAttributesMapConfig.zero : UnpackAttributesMapConfig := ⟨[]⟩

/-- The Go zero value of ExceptionsConfig (nil map). -/
def ExceptionsConfig.zero : ExceptionsConfig := ⟨[]⟩

/-- The Go zero value of OperationRenamesConfig (nil maps). -/
def OperationRenamesConfig.zero : OperationRenamesConfig := ⟨[], []⟩

/-- The Go zero value of RenamesConfig (nil map). -/
def RenamesConfig.zero : RenamesConfig := ⟨[]⟩

/-- The Go zero value of ListOperationConfig (nil slice). -/
def ListOperationConfig.zero : ListOperationConfig := ⟨[]⟩

/-- The Go zero value of ResourceGeneratorConfig (all pointers nil). -/
def ResourceGeneratorConfig.zero : ResourceGeneratorConfig :=
  ⟨none, none, none, none, none⟩

/-- The Go zero value of IgnoreSpec (nil slices). -/
def IgnoreSpec.zero : IgnoreSpec := ⟨[], [], []⟩

/-- The Go zero value of GeneratorConfig, the value `gc` starts from in
`NewGeneratorConfig` before unmarshalling. -/
def GeneratorConfig.zero : GeneratorConfig := ⟨[], IgnoreSpec.zero⟩

/-! ### Decimal integer keys

`ExceptionsConfig.Codes` is a `map[int]string`; the JSON decoder parses
each object key as a base-10 integer (optional sign followed by decimal
digits) and fails on any other key.  We model the parse and print
directions explicitly; integer width is idealized as unbounded. -/

/-- Modelled from the spec: the numeric value of a decimal digit
character, or `none` for a non-digit. -/
def digitVal? (c : Char) : Option Nat :=
  if c.isDigit then some (c.toNat - 48) else none

/-- Modelled from the spec: left-to-right accumulation of decimal
digits, failing on the first non-digit. -/
def parseDigitsAux : List Char → Nat → Option Nat
  | [], acc => some acc
  | c :: cs, acc =>
    match digitVal? c with
    | some d => parseDigitsAux cs (acc * 10 + d)
    | none => none

/-- Modelled from the spec: a non-empty run of decimal digits. -/
def parseDigits? : List Char → Option Nat
  | [] => none
  | cs => parseDigitsAux cs 0

/-- Modelled from the spec: base-10 integer syntax for map keys — an
optional sign followed by at least one decimal digit. -/
def parseIntKey? (s : String) : Option Int :=
  match s.data with
  | [] => none
  | c :: cs =>
    if c = '+' then (parseDigits? cs).map Int.ofNat
    else if c = '-' then (parseDigits? cs).map (fun n => -(Int.ofNat n))
    else (parseDigits? (c :: cs)).map Int.ofNat

/-- Modelled from the spec: the decimal digits of a natural number, most
significant first, prepended to `acc`. -/
def natDigitsAux (n : Nat) (acc : List Char) : List Char :=
  if h : n < 10 then Char.ofNat (48 + n) :: acc
  else natDigitsAux (n / 10) (Char.ofNat (48 + n % 10) :: acc)
termination_by n
decreasing_by exact Nat.div_lt_self (by omega) (by omega)

/-- Modelled from the spec: the canonical decimal rendering of an
integer map key used when serializing `Codes`. -/
def printIntKey : Int → String
  | .ofNat m => ⟨natDigitsAux m []⟩
  | .negSucc m => ⟨'-' :: natDigitsAux (m + 1) []⟩

/-! ### Generic decoding combinators

The JSON decoder is modelled with explicit error propagation: a fold over
object entries that stops at the first failing entry (at the granularity
of the load contract, "some entry fails" and "the load fails" coincide),
a traversal for array elements, and an insert-or-overwrite operation that
mirrors assignment into a Go map. -/

/-- Modelled from the spec: fold the entries of an object through a
decoding step, failing as soon as a step fails. -/
def foldE {α β : Type} (step : α → β → Except String α) : α → List β → Except String α
  | acc, [] => .ok acc
  | acc, b :: l =>
    match step acc b with
    | .error msg => .error msg
    | .ok acc' => foldE step acc' l

/-- Modelled from the spec: decode every element of an array, failing as
soon as one element fails. -/
def mapE {α β : Type} (f : β → Except String α) : List β → Except String (List α)
  | [] => .ok []
  | b :: l =>
    match f b with
    | .error msg => .error msg
    | .ok a =>
      match mapE f l with
      | .error msg => .error msg
      | .ok rest => .ok (a :: rest)

/-- Assignment into a Go map embedded as an association list: overwrite
the binding of `k` in place if present, append it otherwise. -/
def upsert {κ α : Type} [DecidableEq κ] (k : κ) (v : α) : List (κ × α) → List (κ × α)
  | [] => [(k, v)]
  | (k', v') :: rest => if k' = k then (k, v) :: rest else (k', v') :: upsert k v rest

/-- Lookup of a Go map embedded as an association list. -/
def lookupKey {κ α : Type} [DecidableEq κ] (k : κ) : List (κ × α) → Option α
  | [] => none
  | (k', v) :: rest => if k' = k then some v else lookupKey k rest

/-! ### Scalar, slice, map and pointer decoding

Each decoder takes the current Go value of the destination (`cur`): the
JSON decoder merges into whatever value the destination already holds,
which matters when a key occurs twice in one object.  A JSON null leaves
booleans and strings unchanged but resets maps, slices and pointers to
nil; decoding an object into a map keeps the map's existing entries; the
element decoded for each map key starts from the element type's zero
value. -/

/-- Modelled from the spec: decode a JSON value into a Go bool. -/
def unmarshalBool (cur : Bool) : Yaml → Except String Bool
  | .null => .ok cur
  | .bool b => .ok b
  | _ => .error "cannot unmarshal value into Go value of type bool"

/-- Modelled from the spec: decode a JSON value into a Go string. -/
def unmarshalString (cur : String) : Yaml → Except String String
  | .null => .ok cur
  | .str s => .ok s
  | _ => .error "cannot unmarshal value into Go value of type string"

/-- Modelled from the spec: decode a JSON value into a Go string slice;
null resets the slice to nil, and each element starts from the zero
string. -/
def unmarshalStringSlice (_cur : List String) : Yaml → Except String (List String)
  | .null => .ok []
  | .arr items => mapE (unmarshalString "") items
  | _ => .error "cannot unmarshal value into Go slice of strings"

/-- Modelled from the spec: decode a JSON value into a Go map; null
resets the map to nil, an object is merged into the current map binding
by binding, and anything else fails.  `decodeKey` parses the object key
(the identity for string-keyed maps, decimal parsing for integer-keyed
maps) and `decodeVal` decodes the entry value starting from the element
type's zero value. -/
def mapStep {κ α : Type} [DecidableEq κ]
    (decodeKey : String → Except String κ) (decodeVal : Yaml → Except String α)
    (acc : List (κ × α)) (e : String × Yaml) : Except String (List (κ × α)) :=
  match decodeKey e.1 with
  | .error msg => .error msg
  | .ok k =>
    match decodeVal e.2 with
    | .error msg => .error msg
    | .ok v => .ok (upsert k v acc)

/-- Modelled from the spec: see `mapStep` for the decoding of one
object entry into a map binding. -/
def unmarshalMap {κ α : Type} [DecidableEq κ]
    (decodeKey : String → Except String κ) (decodeVal : Yaml → Except String α)
    (cur : List (κ × α)) : Yaml → Except String (List (κ × α))
  | .null => .ok []
  | .obj entries => foldE (mapStep decodeKey decodeVal) cur entries
  | _ => .error "cannot unmarshal value into Go map"

/-- Modelled from the spec: parse an integer map key, as the JSON decoder
does for `map[int]string`. -/
def decodeIntKey (s : String) : Except String Int :=
  match parseIntKey? s with
  | some n => .ok n
  | none => .error "cannot unmarshal object key into Go value of type int"

/-- Modelled from the spec: decode a JSON value into a Go pointer field:
null sets the pointer to nil; any other value is decoded into the
current pointee when the pointer is non-nil, or into a freshly allocated
zero value when it is nil. -/
def unmarshalOptInto {α : Type} (zeroVal : α) (decode : α → Yaml → Except String α)
    (cur : Option α) (v : Yaml) : Except String (Option α) :=
  match v with
  | .null => .ok none
  | v =>
    match decode (cur.getD zeroVal) v with
    | .error msg => .error msg
    | .ok x => .ok (some x)

/-! ### Struct decoding

One decoder per struct of the source file; the recognized keys are
exactly the json struct tags in `pkg/model/generator_config.go`, and
unrecognized keys are skipped. -/

/-- Modelled from the spec: decode one object entry into
FieldGeneratorConfig (tags `is_read_only`, `contains_owner_account_id`;
unrecognized keys are skipped). -/
def stepFieldGeneratorConfig (acc : FieldGeneratorConfig) (e : String × Yaml) : Except String FieldGeneratorConfig :=
  if e.1 = "is_read_only" then
    match unmarshalBool acc.IsReadOnly e.2 with
    | .error msg => .error msg
    | .ok b => .ok { acc with IsReadOnly := b }
  else if e.1 = "contains_owner_account_id" then
    match unmarshalBool acc.ContainsOwnerAccountID e.2 with
    | .error msg => .error msg
    | .ok b => .ok { acc with ContainsOwnerAccountID := b }
  else .ok acc

/-- Modelled from the spec: decode an object into FieldGeneratorConfig. -/
def unmarshalFieldGeneratorConfig (cur : FieldGeneratorConfig) : Yaml → Except String FieldGeneratorConfig
  | .null => .ok cur
  | .obj entries => foldE stepFieldGeneratorConfig cur entries
  | _ => .error "cannot unmarshal value into Go value of type FieldGeneratorConfig"

/-- Modelled from the spec: decode one object entry into
UnpackAttributesMapConfig (tag `fields`, a map of attribute key to
FieldGeneratorConfig; unrecognized keys are skipped). -/
def stepUnpackAttributesMapConfig (acc : UnpackAttributesMapConfig) (e : String × Yaml) : Except String UnpackAttributesMapConfig :=
  if e.1 = "fields" then
    match unmarshalMap Except.ok (unmarshalFieldGeneratorConfig FieldGeneratorConfig.zero) acc.Fields e.2 with
    | .error msg => .error msg
    | .ok m => .ok { acc with Fields := m }
  else .ok acc

/-- Modelled from the spec: decode an object into
UnpackAttributesMapConfig. -/
def unmarshalUnpackAttributesMapConfig (cur : UnpackAttributesMapConfig) : Yaml → Except String UnpackAttributesMapConfig
  | .null => .ok cur
  | .obj entries => foldE stepUnpackAttributesMapConfig cur entries
  | _ => .error "cannot unmarshal value into Go value of type UnpackAttributesMapConfig"

/-- Modelled from the spec: decode one object entry into
ExceptionsConfig (tag `codes`, a map of integer key to string;
unrecognized keys are skipped). -/
def stepExceptionsConfig (acc : ExceptionsConfig) (e : String × Yaml) : Except String ExceptionsConfig :=
  if e.1 = "codes" then
    match unmarshalMap decodeIntKey (unmarshalString "") acc.Codes e.2 with
    | .error msg => .error msg
    | .ok m => .ok { acc with Codes := m }
  else .ok acc

/-- Modelled from the spec: decode an object into ExceptionsConfig. -/
def unmarshalExceptionsConfig (cur : ExceptionsConfig) : Yaml → Except String ExceptionsConfig
  | .null => .ok cur
  | .obj entries => foldE stepExceptionsConfig cur entries
  | _ => .error "cannot unmarshal value into Go value of type ExceptionsConfig"

/-- Modelled from the spec: decode one object entry into
OperationRenamesConfig (tags `input_fields`, `output_fields`;
unrecognized keys are skipped). -/
def stepOperationRenamesConfig (acc : OperationRenamesConfig) (e : String × Yaml) : Except String OperationRenamesConfig :=
  if e.1 = "input_fields" then
    match unmarshalMap Except.ok (unmarshalString "") acc.InputFields e.2 with
    | .error msg => .error msg
    | .ok m => .ok { acc with InputFields := m }
  else if e.1 = "output_fields" then
    match unmarshalMap Except.ok (unmarshalString "") acc.OutputFields e.2 with
    | .error msg => .error msg
    | .ok m => .ok { acc with OutputFields := m }
  else .ok acc

/-- Modelled from the spec: decode an object into
OperationRenamesConfig. -/
def unmarshalOperationRenamesConfig (cur : OperationRenamesConfig) : Yaml → Except String OperationRenamesConfig
  | .null => .ok cur
  | .obj entries => foldE stepOperationRenamesConfig cur entries
  | _ => .error "cannot unmarshal value into Go value of type OperationRenamesConfig"

/-- Modelled from the spec: decode one object entry into RenamesConfig
(tag `operations`, a map of operation ID to
pointer-to-OperationRenamesConfig, so each map value starts from a nil
pointer; unrecognized keys are skipped). -/
def stepRenamesConfig (acc : RenamesConfig) (e : String × Yaml) : Except String RenamesConfig :=
  if e.1 = "operations" then
    match unmarshalMap Except.ok
        (unmarshalOptInto OperationRenamesConfig.zero unmarshalOperationRenamesConfig none)
        acc.Operations e.2 with
    | .error msg => .error msg
    | .ok m => .ok { acc with Operations := m }
  else .ok acc

/-- Modelled from the spec: decode an object into RenamesConfig. -/
def unmarshalRenamesConfig (cur : RenamesConfig) : Yaml → Except String RenamesConfig
  | .null => .ok cur
  | .obj entries => foldE stepRenamesConfig cur entries
  | _ => .error "cannot unmarshal value into Go value of type RenamesConfig"

/-- Modelled from the spec: decode one object entry into
ListOperationConfig (tag `match_fields`; unrecognized keys are
skipped). -/
def stepListOperationConfig (acc : ListOperationConfig) (e : String × Yaml) : Except String ListOperationConfig :=
  if e.1 = "match_fields" then
    match unmarshalStringSlice acc.MatchFields e.2 with
    | .error msg => .error msg
    | .ok l => .ok { acc with MatchFields := l }
  else .ok acc

/-- Modelled from the spec: decode an object into ListOperationConfig. -/
def unmarshalListOperationConfig (cur : ListOperationConfig) : Yaml → Except String ListOperationConfig
  | .null => .ok cur
  | .obj entries => foldE stepListOperationConfig cur entries
  | _ => .error "cannot unmarshal value into Go value of type ListOperationConfig"

/-- Modelled from the spec: decode one object entry into
ResourceGeneratorConfig (tags `name_field`, `unpack_attributes_map`,
`exceptions`, `renames`, `list_operation`, all pointer fields;
unrecognized keys are skipped). -/
def stepResourceGeneratorConfig (acc : ResourceGeneratorConfig) (e : String × Yaml) : Except String ResourceGeneratorConfig :=
  if e.1 = "name_field" then
    match unmarshalOptInto "" unmarshalString acc.NameField e.2 with
    | .error msg => .error msg
    | .ok p => .ok { acc with NameField := p }
  else if e.1 = "unpack_attributes_map" then
    match unmarshalOptInto UnpackAttributesMapConfig.zero unmarshalUnpackAttributesMapConfig acc.UnpackAttributesMapConfig e.2 with
    | .error msg => .error msg
    | .ok p => .ok { acc with UnpackAttributesMapConfig := p }
  else if e.1 = "exceptions" then
    match unmarshalOptInto ExceptionsConfig.zero unmarshalExceptionsConfig acc.Exceptions e.2 with
    | .error msg => .error msg
    | .ok p => .ok { acc with Exceptions := p }
  else if e.1 = "renames" then
    match unmarshalOptInto RenamesConfig.zero unmarshalRenamesConfig acc.Renames e.2 with
    | .error msg => .error msg
    | .ok p => .ok { acc with Renames := p }
  else if e.1 = "list_operation" then
    match unmarshalOptInto ListOperationConfig.zero unmarshalListOperationConfig acc.ListOperation e.2 with
    | .error msg => .error msg
    | .ok p => .ok { acc with ListOperation := p }
  else .ok acc

/-- Modelled from the spec: decode an object into
ResourceGeneratorConfig. -/
def unmarshalResourceGeneratorConfig (cur : ResourceGeneratorConfig) : Yaml → Except String ResourceGeneratorConfig
  | .null => .ok cur
  | .obj entries => foldE stepResourceGeneratorConfig cur entries
  | _ => .error "cannot unmarshal value into Go value of type ResourceGeneratorConfig"

/-- Modelled from the spec: decode one object entry into IgnoreSpec
(tags `operations`, `resource_names`, `shape_names`; unrecognized keys
are skipped). -/
def stepIgnoreSpec (acc : IgnoreSpec) (e : String × Yaml) : Except String IgnoreSpec :=
  if e.1 = "operations" then
    match unmarshalStringSlice acc.Operations e.2 with
    | .error msg => .error msg
    | .ok l => .ok { acc with Operations := l }
  else if e.1 = "resource_names" then
    match unmarshalStringSlice acc.ResourceNames e.2 with
    | .error msg => .error msg
    | .ok l => .ok { acc with ResourceNames := l }
  else if e.1 = "shape_names" then
    match unmarshalStringSlice acc.ShapeNames e.2 with
    | .error msg => .error msg
    | .ok l => .ok { acc with ShapeNames := l }
  else .ok acc

/-- Modelled from the spec: decode an object into IgnoreSpec. -/
def unmarshalIgnoreSpec (cur : IgnoreSpec) : Yaml → Except String IgnoreSpec
  | .null => .ok cur
  | .obj entries => foldE stepIgnoreSpec cur entries
  | _ => .error "cannot unmarshal value into Go value of type IgnoreSpec"

/-- Modelled from the spec: decode one object entry of the top-level
document into GeneratorConfig (tags `resources`, `ignore`; unrecognized
keys are skipped). -/
def stepGeneratorConfig (acc : GeneratorConfig) (e : String × Yaml) : Except String GeneratorConfig :=
  if e.1 = "resources" then
    match unmarshalMap Except.ok (unmarshalResourceGeneratorConfig ResourceGeneratorConfig.zero) acc.Resources e.2 with
    | .error msg => .error msg
    | .ok m => .ok { acc with Resources := m }
  else if e.1 = "ignore" then
    match unmarshalIgnoreSpec acc.Ignore e.2 with
    | .error msg => .error msg
    | .ok i => .ok { acc with Ignore := i }
  else .ok acc

/-- Modelled from the spec: decode the top-level document into
GeneratorConfig. -/
def unmarshalGeneratorConfig (cur : GeneratorConfig) : Yaml → Except String GeneratorConfig
  | .null => .ok cur
  | .obj entries => foldE stepGeneratorConfig cur entries
  | _ => .error "cannot unmarshal value into Go value of type GeneratorConfig"

/-! ### The loader -/

/-- The two fatal error kinds of the load contract: the I/O kind
(missing or unreadable file) and the schema/parse kind (type mismatch
against the expected shape). -/
inductive ConfigError where
  | ioError (path : String) : ConfigError
  | schemaError (msg : String) : ConfigError
  deriving DecidableEq, Repr

/-- NewGeneratorConfig returns a new GeneratorConfig object given a
supplied path to a config file.  The file system is passed explicitly:
`fs path` is the parsed document of the file at `path` when that path
names a readable file, and `none` otherwise (an empty readable file
parses to the null document).  Mirrors the source: start from the zero
GeneratorConfig, fail on a read error, fail on an unmarshal error,
otherwise return the populated config. -/
def NewGeneratorConfig (fs : String → Option Yaml) (configPath : String) :
    Except ConfigError GeneratorConfig :=
  match fs configPath with
  | none => .error (.ioError configPath)
  | some contents =>
    match unmarshalGeneratorConfig GeneratorConfig.zero contents with
    | .error msg => .error (.schemaError msg)
    | .ok gc => .ok gc

/-! ### Combinator lemmas -/

/-- A fold over a concatenation runs the two halves in sequence. -/
theorem foldE_append {α β : Type} (step : α → β → Except String α) (l₁ l₂ : List β) (acc : α) :
    foldE step acc (l₁ ++ l₂) =
      match foldE step acc l₁ with
      | .error msg => .error msg
      | .ok a => foldE step a l₂ := by
  induction l₁ generalizing acc with
  | nil => simp [foldE]
  | cons b l ih =>
    simp only [List.cons_append, foldE]
    cases step acc b with
    | error msg => rfl
    | ok a => exact ih a

/-- If some entry of the list always fails, the whole fold fails. -/
theorem foldE_error_of_mem {α β : Type} (step : α → β → Except String α) (l : List β) (b : β)
    (hb : b ∈ l) (hstep : ∀ acc, ∃ msg, step acc b = .error msg) (acc : α) :
    ∃ msg, foldE step acc l = .error msg := by
  induction l generalizing acc with
  | nil => cases hb
  | cons c l ih =>
    rcases List.mem_cons.mp hb with h | h
    · obtain ⟨msg, hmsg⟩ := hstep acc
      exact ⟨msg, by simp [foldE, h ▸ hmsg]⟩
    · cases hc : step acc c with
      | error msg => exact ⟨msg, by simp [foldE, hc]⟩
      | ok a =>
        obtain ⟨msg, hmsg⟩ := ih h a
        exact ⟨msg, by simp [foldE, hc, hmsg]⟩

/-- If every entry of the list succeeds from every accumulator, the whole
fold succeeds. -/
theorem foldE_ok_of_all {α β : Type} (step : α → β → Except String α) (l : List β)
    (h : ∀ acc b, b ∈ l → ∃ acc', step acc b = .ok acc') (acc : α) :
    ∃ r, foldE step acc l = .ok r := by
  induction l generalizing acc with
  | nil => exact ⟨acc, rfl⟩
  | cons c l ih =>
    obtain ⟨a, ha⟩ := h acc c (List.mem_cons_self c l)
    obtain ⟨r, hr⟩ := ih (fun acc' b hb => h acc' b (List.mem_cons_of_mem c hb)) a
    exact ⟨r, by simp [foldE, ha, hr]⟩

/-- An invariant preserved by every successful step is preserved by a
successful fold. -/
theorem foldE_preserves {α β : Type} (step : α → β → Except String α) (l : List β)
    (P : α → Prop)
    (h : ∀ acc b r, b ∈ l → P acc → step acc b = .ok r → P r) :
    ∀ acc r, P acc → foldE step acc l = .ok r → P r := by
  induction l with
  | nil =>
    intro acc r hP hfold
    simp only [foldE, Except.ok.injEq] at hfold
    exact hfold ▸ hP
  | cons c l ih =>
    intro acc r hP hfold
    cases hc : step acc c with
    | error msg => simp [foldE, hc] at hfold
    | ok a =>
      simp only [foldE, hc] at hfold
      exact ih (fun acc' b r' hb => h acc' b r' (List.mem_cons_of_mem c hb)) a r
        (h acc c a (List.mem_cons_self c l) hP hc) hfold

/-- A step that leaves every accumulator unchanged can be dropped from
the middle of a fold. -/
theorem foldE_skip_middle {α β : Type} (step : α → β → Except String α) (b : β)
    (hstep : ∀ acc, step acc b = .ok acc) (l₁ l₂ : List β) (acc : α) :
    foldE step acc (l₁ ++ b :: l₂) = foldE step acc (l₁ ++ l₂) := by
  rw [foldE_append, foldE_append]
  cases foldE step acc l₁ with
  | error msg => rfl
  | ok a => simp [foldE, hstep a]

/-- Traversing a mapped list succeeds pointwise. -/
theorem mapE_map {α β : Type} (f : β → Except String α) (g : α → β) (l : List α)
    (h : ∀ x ∈ l, f (g x) = .ok x) : mapE f (l.map g) = .ok l := by
  induction l with
  | nil => rfl
  | cons x l ih =>
    simp only [List.map_cons, mapE]
    rw [h x (List.mem_cons_self x l), ih (fun y hy => h y (List.mem_cons_of_mem x hy))]

/-- Inserting a key that is not bound yet appends the binding. -/
theorem upsert_of_lookupKey_none {κ α : Type} [DecidableEq κ] (k : κ) (v : α)
    (l : List (κ × α)) (h : lookupKey k l = none) : upsert k v l = l ++ [(k, v)] := by
  induction l with
  | nil => rfl
  | cons p l ih =>
    obtain ⟨k', v'⟩ := p
    simp only [lookupKey] at h
    by_cases hk : k' = k
    · simp [hk] at h
    · simp only [upsert, if_neg hk, List.cons_append]
      rw [ih (by simpa [hk] using h)]

/-- Looking up past a prefix that does not bind the key. -/
theorem lookupKey_append_of_none {κ α : Type} [DecidableEq κ] (k : κ) (l₁ l₂ : List (κ × α))
    (h : lookupKey k l₁ = none) : lookupKey k (l₁ ++ l₂) = lookupKey k l₂ := by
  induction l₁ with
  | nil => rfl
  | cons p l ih =>
    obtain ⟨k', v'⟩ := p
    simp only [lookupKey] at h
    by_cases hk : k' = k
    · simp [hk] at h
    · simp only [List.cons_append, lookupKey, if_neg hk]
      exact ih (by simpa [hk] using h)

/-- An upsert binds its own key. -/
theorem lookupKey_upsert_self {κ α : Type} [DecidableEq κ] (k : κ) (v : α)
    (l : List (κ × α)) : lookupKey k (upsert k v l) = some v := by
  induction l with
  | nil => simp [upsert, lookupKey]
  | cons p l ih =>
    obtain ⟨k', v'⟩ := p
    by_cases hk : k' = k
    · simp [upsert, hk, lookupKey]
    · simp [upsert, hk, lookupKey, ih]

/-- An upsert leaves every other key's binding unchanged. -/
theorem lookupKey_upsert_ne {κ α : Type} [DecidableEq κ] (k k' : κ) (v : α)
    (l : List (κ × α)) (hk : k' ≠ k) : lookupKey k' (upsert k v l) = lookupKey k' l := by
  induction l with
  | nil => simp [upsert, lookupKey, Ne.symm hk]
  | cons p l ih =>
    obtain ⟨k₀, v₀⟩ := p
    by_cases h0 : k₀ = k
    · subst h0
      simp [upsert, lookupKey, Ne.symm hk]
    · simp only [upsert, if_neg h0, lookupKey]
      by_cases h1 : k₀ = k'
      · simp [h1]
      · simp [h1, ih]

/-! ### Decimal roundtrip -/

/-- Power of ten matching the digit count of `n`, used to state the
parse/print roundtrip. -/
def tenPow (n : Nat) : Nat :=
  if n < 10 then 10 else tenPow (n / 10) * 10
termination_by n
decreasing_by exact Nat.div_lt_self (by omega) (by omega)

/-- The character printed for a single decimal digit parses back to it. -/
theorem digitVal?_char (d : Nat) (h : d < 10) : digitVal? (Char.ofNat (48 + d)) = some d := by
  interval_cases d <;> decide

/-- Printed digit characters are never the plus sign. -/
theorem char_digit_ne_plus (d : Nat) (h : d < 10) : Char.ofNat (48 + d) ≠ '+' := by
  interval_cases d <;> decide

/-- Printed digit characters are never the minus sign. -/
theorem char_digit_ne_minus (d : Nat) (h : d < 10) : Char.ofNat (48 + d) ≠ '-' := by
  interval_cases d <;> decide

/-- Parsing the printed digits of `n` in front of `rest` accumulates `n`
in base ten. -/
theorem parseDigitsAux_natDigitsAux (n : Nat) :
    ∀ (rest : List Char) (a : Nat),
      parseDigitsAux (natDigitsAux n rest) a = parseDigitsAux rest (a * tenPow n + n) := by
  induction n using Nat.strong_induction_on with
  | _ n ih =>
    intro rest a
    by_cases h : n < 10
    · rw [natDigitsAux, dif_pos h, tenPow, if_pos h]
      simp [parseDigitsAux, digitVal?_char n h]
    · rw [natDigitsAux, dif_neg h, ih (n / 10) (Nat.div_lt_self (by omega) (by omega))]
      simp only [parseDigitsAux, digitVal?_char (n % 10) (Nat.mod_lt n (by omega))]
      conv_rhs => rw [tenPow, if_neg h]
      congr 1
      rw [← Nat.mul_assoc]
      have h3 := Nat.div_add_mod n 10
      generalize a * tenPow (n / 10) = T
      omega

/-- The printed digits of `n` start with a digit character. -/
theorem natDigitsAux_head (n : Nat) :
    ∀ acc, ∃ d tail, d < 10 ∧ natDigitsAux n acc = Char.ofNat (48 + d) :: tail := by
  induction n using Nat.strong_induction_on with
  | _ n ih =>
    intro acc
    by_cases h : n < 10
    · exact ⟨n, acc, h, by rw [natDigitsAux, dif_pos h]⟩
    · obtain ⟨d, tail, hd, htail⟩ :=
        ih (n / 10) (Nat.div_lt_self (by omega) (by omega)) (Char.ofNat (48 + n % 10) :: acc)
      exact ⟨d, tail, hd, by rw [natDigitsAux, dif_neg h]; exact htail⟩

/-- Parsing the printed digits of `n` yields `n`. -/
theorem parseDigits?_natDigitsAux (n : Nat) : parseDigits? (natDigitsAux n []) = some n := by
  obtain ⟨d, tail, hd, htail⟩ := natDigitsAux_head n []
  have h1 : parseDigits? (natDigitsAux n []) = parseDigitsAux (natDigitsAux n []) 0 := by
    rw [htail]; rfl
  rw [h1, parseDigitsAux_natDigitsAux n [] 0]
  simp [parseDigitsAux]

/-- Roundtrip of integer map keys: the canonical decimal rendering of an
integer parses back to the same integer. -/
theorem parseIntKey?_printIntKey (n : Int) : parseIntKey? (printIntKey n) = some n := by
  cases n with
  | ofNat m =>
    obtain ⟨d, tail, hd, htail⟩ := natDigitsAux_head m []
    have hdata : (printIntKey (.ofNat m)).data = Char.ofNat (48 + d) :: tail := by
      simp [printIntKey, htail]
    simp only [parseIntKey?, hdata]
    rw [if_neg (char_digit_ne_plus d hd), if_neg (char_digit_ne_minus d hd), ← htail,
      parseDigits?_natDigitsAux m]
    rfl
  | negSucc m =>
    have hdata : (printIntKey (.negSucc m)).data = '-' :: natDigitsAux (m + 1) [] := by
      simp [printIntKey]
    simp only [parseIntKey?, hdata]
    rw [if_neg (by decide : ¬('-' = '+')), if_pos trivial, parseDigits?_natDigitsAux (m + 1)]
    simp [Int.negSucc_eq]

/-! ### Serialization

The round-trip law of the spec serializes a populated config back to the
document format.  The serializer is external to the repository, so it is
modelled from the spec and the marshalling rules the struct tags select:
structs become objects listing their fields, maps and slices become
objects and arrays, `omitempty` pointer fields are dropped when nil, and
integer map keys are rendered in decimal. -/

/-- Modelled from the spec: the object entry of an `omitempty` pointer
field — absent when the pointer is nil. -/
def optEntry (k : String) : Option Yaml → List (String × Yaml)
  | none => []
  | some v => [(k, v)]

/-- Modelled from the spec: serialize FieldGeneratorConfig. -/
def marshalFieldGeneratorConfig (f : FieldGeneratorConfig) : Yaml :=
  .obj [("is_read_only", .bool f.IsReadOnly),
        ("contains_owner_account_id", .bool f.ContainsOwnerAccountID)]

/-- Modelled from the spec: serialize a string-to-string map. -/
def marshalStringMap (m : List (String × String)) : Yaml :=
  .obj (m.map (fun p => (p.1, .str p.2)))

/-- Modelled from the spec: serialize UnpackAttributesMapConfig. -/
def marshalUnpackAttributesMapConfig (u : UnpackAttributesMapConfig) : Yaml :=
  .obj [("fields", .obj (u.Fields.map (fun p => (p.1, marshalFieldGeneratorConfig p.2))))]

/-- Modelled from the spec: serialize ExceptionsConfig, rendering each
integer status code as its decimal object key. -/
def marshalExceptionsConfig (e : ExceptionsConfig) : Yaml :=
  .obj [("codes", .obj (e.Codes.map (fun p => (printIntKey p.1, .str p.2))))]

/-- Modelled from the spec: serialize OperationRenamesConfig. -/
def marshalOperationRenamesConfig (o : OperationRenamesConfig) : Yaml :=
  .obj [("input_fields", marshalStringMap o.InputFields),
        ("output_fields", marshalStringMap o.OutputFields)]

/-- Modelled from the spec: serialize a pointer-valued map entry of
`operations` — a nil pointer serializes to null. -/
def marshalOptOperationRenames : Option OperationRenamesConfig → Yaml
  | none => .null
  | some o => marshalOperationRenamesConfig o

/-- Modelled from the spec: serialize RenamesConfig. -/
def marshalRenamesConfig (r : RenamesConfig) : Yaml :=
  .obj [("operations", .obj (r.Operations.map (fun p => (p.1, marshalOptOperationRenames p.2))))]

/-- Modelled from the spec: serialize ListOperationConfig. -/
def marshalListOperationConfig (l : ListOperationConfig) : Yaml :=
  .obj [("match_fields", .arr (l.MatchFields.map Yaml.str))]

/-- Modelled from the spec: serialize ResourceGeneratorConfig; all five
fields carry `omitempty`, so nil pointers produce no entry. -/
def marshalResourceGeneratorConfig (rc : ResourceGeneratorConfig) : Yaml :=
  .obj (optEntry "name_field" (rc.NameField.map Yaml.str) ++
    (optEntry "unpack_attributes_map" (rc.UnpackAttributesMapConfig.map marshalUnpackAttributesMapConfig) ++
      (optEntry "exceptions" (rc.Exceptions.map marshalExceptionsConfig) ++
        (optEntry "renames" (rc.Renames.map marshalRenamesConfig) ++
          optEntry "list_operation" (rc.ListOperation.map marshalListOperationConfig)))))

/-- Modelled from the spec: serialize IgnoreSpec. -/
def marshalIgnoreSpec (i : IgnoreSpec) : Yaml :=
  .obj [("operations", .arr (i.Operations.map Yaml.str)),
        ("resource_names", .arr (i.ResourceNames.map Yaml.str)),
        ("shape_names", .arr (i.ShapeNames.map Yaml.str))]

/-- Modelled from the spec: serialize GeneratorConfig. -/
def marshalGeneratorConfig (gc : GeneratorConfig) : Yaml :=
  .obj [("resources", .obj (gc.Resources.map (fun p => (p.1, marshalResourceGeneratorConfig p.2)))),
        ("ignore", marshalIgnoreSpec gc.Ignore)]

/-! ### Well-formed configuration values

A Go map cannot bind the same key twice, so the embedding of a real
GeneratorConfig value has pairwise-distinct keys in every association
list of the tree.  The round-trip law quantifies over exactly these
values. -/

/-- The keys of an embedded Go map are pairwise distinct. -/
def KeysNodup {κ α : Type} (l : List (κ × α)) : Prop := (l.map Prod.fst).Nodup

/-- An embedded OperationRenamesConfig value that a real Go value can
take: both rename tables are maps. -/
def OperationRenamesConfig.WF (o : OperationRenamesConfig) : Prop :=
  KeysNodup o.InputFields ∧ KeysNodup o.OutputFields

/-- An embedded RenamesConfig value that a real Go value can take. -/
def RenamesConfig.WF (r : RenamesConfig) : Prop :=
  KeysNodup r.Operations ∧ ∀ p ∈ r.Operations, ∀ o, p.2 = some o → o.WF

/-- An embedded UnpackAttributesMapConfig value that a real Go value can
take. -/
def UnpackAttributesMapConfig.WF (u : UnpackAttributesMapConfig) : Prop :=
  KeysNodup u.Fields

/-- An embedded ExceptionsConfig value that a real Go value can take. -/
def ExceptionsConfig.WF (e : ExceptionsConfig) : Prop :=
  KeysNodup e.Codes

/-- An embedded ResourceGeneratorConfig value that a real Go value can
take. -/
def ResourceGeneratorConfig.WF (rc : ResourceGeneratorConfig) : Prop :=
  (∀ u, rc.UnpackAttributesMapConfig = some u → u.WF) ∧
  (∀ e, rc.Exceptions = some e → e.WF) ∧
  (∀ r, rc.Renames = some r → r.WF)

/-- An embedded GeneratorConfig value that a real Go value can take. -/
def GeneratorConfig.WF (gc : GeneratorConfig) : Prop :=
  KeysNodup gc.Resources ∧ ∀ p ∈ gc.Resources, p.2.WF

/-! ### Round-trip lemmas -/

/-- Unmarshalling the serialized entries of a map with distinct keys,
none of which is bound in the accumulator, appends the map. -/
theorem unmarshalMap_roundtrip {κ α : Type} [DecidableEq κ]
    (decodeKey : String → Except String κ) (decodeVal : Yaml → Except String α)
    (printKey : κ → String) (printVal : α → Yaml) (l : List (κ × α))
    (hk : ∀ p ∈ l, decodeKey (printKey p.1) = .ok p.1)
    (hv : ∀ p ∈ l, decodeVal (printVal p.2) = .ok p.2)
    (hnd : KeysNodup l) :
    ∀ acc, (∀ p ∈ l, lookupKey p.1 acc = none) →
      unmarshalMap decodeKey decodeVal acc
        (.obj (l.map (fun p => (printKey p.1, printVal p.2)))) = .ok (acc ++ l) := by
  induction l with
  | nil => intro acc _; simp [unmarshalMap, foldE]
  | cons p l ih =>
    intro acc hacc
    obtain ⟨k, v⟩ := p
    have hnd' : KeysNodup l ∧ k ∉ l.map Prod.fst := by
      have := hnd
      simp only [KeysNodup, List.map_cons, List.nodup_cons] at this
      exact ⟨this.2, this.1⟩
    simp only [unmarshalMap, List.map_cons, foldE, mapStep,
      hk (k, v) (List.mem_cons_self _ _), hv (k, v) (List.mem_cons_self _ _)]
    rw [upsert_of_lookupKey_none k v acc (hacc (k, v) (List.mem_cons_self _ _))]
    have hmain := ih (fun q hq => hk q (List.mem_cons_of_mem _ hq))
      (fun q hq => hv q (List.mem_cons_of_mem _ hq)) hnd'.1 (acc ++ [(k, v)])
      (fun q hq => by
        have hne : k ≠ q.1 := fun h =>
          hnd'.2 (h ▸ List.mem_map_of_mem Prod.fst hq)
        rw [lookupKey_append_of_none q.1 acc [(k, v)] (hacc q (List.mem_cons_of_mem _ hq))]
        simp [lookupKey, hne])
    simp only [unmarshalMap] at hmain
    rw [hmain]
    simp

/-- Unmarshalling the serialized FieldGeneratorConfig recovers it. -/
theorem roundtripFieldGeneratorConfig (f : FieldGeneratorConfig) :
    unmarshalFieldGeneratorConfig FieldGeneratorConfig.zero (marshalFieldGeneratorConfig f) = .ok f :=
  rfl

/-- Unmarshalling a serialized string-to-string map recovers it. -/
theorem unmarshalStringMap_roundtrip (m : List (String × String)) (h : KeysNodup m) :
    unmarshalMap Except.ok (unmarshalString "") [] (marshalStringMap m) = .ok m := by
  have hm := unmarshalMap_roundtrip Except.ok (unmarshalString "") (fun k => k) Yaml.str m
    (fun p _ => rfl) (fun p _ => rfl) h [] (fun p _ => rfl)
  simpa [marshalStringMap] using hm

/-- Unmarshalling the serialized OperationRenamesConfig recovers it. -/
theorem roundtripOperationRenamesConfig (o : OperationRenamesConfig) (h : o.WF) :
    unmarshalOperationRenamesConfig OperationRenamesConfig.zero (marshalOperationRenamesConfig o) = .ok o := by
  have h1 := unmarshalStringMap_roundtrip o.InputFields h.1
  have h2 := unmarshalStringMap_roundtrip o.OutputFields h.2
  simp [marshalOperationRenamesConfig, unmarshalOperationRenamesConfig, foldE,
    stepOperationRenamesConfig, OperationRenamesConfig.zero, h1, h2]

/-- Unmarshalling the serialized UnpackAttributesMapConfig recovers it. -/
theorem roundtripUnpackAttributesMapConfig (u : UnpackAttributesMapConfig) (h : u.WF) :
    unmarshalUnpackAttributesMapConfig UnpackAttributesMapConfig.zero (marshalUnpackAttributesMapConfig u) = .ok u := by
  have hm := unmarshalMap_roundtrip Except.ok
    (unmarshalFieldGeneratorConfig FieldGeneratorConfig.zero) (fun k => k)
    marshalFieldGeneratorConfig u.Fields (fun p _ => rfl)
    (fun p _ => roundtripFieldGeneratorConfig p.2) h [] (fun p _ => rfl)
  simp only [List.nil_append] at hm
  simp [marshalUnpackAttributesMapConfig, unmarshalUnpackAttributesMapConfig, foldE,
    stepUnpackAttributesMapConfig, UnpackAttributesMapConfig.zero, hm]

/-- The printed decimal key of an integer status code decodes back. -/
theorem decodeIntKey_printIntKey (n : Int) : decodeIntKey (printIntKey n) = .ok n := by
  simp [decodeIntKey, parseIntKey?_printIntKey]

/-- Unmarshalling the serialized ExceptionsConfig recovers it. -/
theorem roundtripExceptionsConfig (e : ExceptionsConfig) (h : e.WF) :
    unmarshalExceptionsConfig ExceptionsConfig.zero (marshalExceptionsConfig e) = .ok e := by
  have hm := unmarshalMap_roundtrip decodeIntKey (unmarshalString "") printIntKey Yaml.str
    e.Codes (fun p _ => decodeIntKey_printIntKey p.1) (fun p _ => rfl) h [] (fun p _ => rfl)
  simp only [List.nil_append] at hm
  simp [marshalExceptionsConfig, unmarshalExceptionsConfig, foldE, stepExceptionsConfig,
    ExceptionsConfig.zero, hm]

/-- A serialized present OperationRenamesConfig decodes into a nil
pointer as a fresh pointee. -/
theorem bridgeOperationRenames (o : OperationRenamesConfig) (h : o.WF) :
    unmarshalOptInto OperationRenamesConfig.zero unmarshalOperationRenamesConfig none
      (marshalOperationRenamesConfig o) = .ok (some o) := by
  have hrt := roundtripOperationRenamesConfig o h
  simp only [marshalOperationRenamesConfig] at hrt ⊢
  simp [unmarshalOptInto, hrt]

/-- Unmarshalling the serialized RenamesConfig recovers it. -/
theorem roundtripRenamesConfig (r : RenamesConfig) (h : r.WF) :
    unmarshalRenamesConfig RenamesConfig.zero (marshalRenamesConfig r) = .ok r := by
  have hm := unmarshalMap_roundtrip Except.ok
    (unmarshalOptInto OperationRenamesConfig.zero unmarshalOperationRenamesConfig none)
    (fun k => k) marshalOptOperationRenames r.Operations (fun p _ => rfl)
    (fun p hp => by
      cases hp2 : p.2 with
      | none => simp [marshalOptOperationRenames, unmarshalOptInto]
      | some o =>
        have ho := h.2 p hp o hp2
        simpa [marshalOptOperationRenames] using bridgeOperationRenames o ho)
    h.1 [] (fun p _ => rfl)
  simp only [List.nil_append] at hm
  simp [marshalRenamesConfig, unmarshalRenamesConfig, foldE, stepRenamesConfig,
    RenamesConfig.zero, hm]

/-- Unmarshalling the serialized ListOperationConfig recovers it. -/
theorem roundtripListOperationConfig (l : ListOperationConfig) :
    unmarshalListOperationConfig ListOperationConfig.zero (marshalListOperationConfig l) = .ok l := by
  have hm := mapE_map (unmarshalString "") Yaml.str l.MatchFields (fun x _ => rfl)
  simp [marshalListOperationConfig, unmarshalListOperationConfig, foldE,
    stepListOperationConfig, ListOperationConfig.zero, unmarshalStringSlice, hm]

/-- Unmarshalling the serialized IgnoreSpec recovers it. -/
theorem roundtripIgnoreSpec (i : IgnoreSpec) :
    unmarshalIgnoreSpec IgnoreSpec.zero (marshalIgnoreSpec i) = .ok i := by
  have h1 := mapE_map (unmarshalString "") Yaml.str i.Operations (fun x _ => rfl)
  have h2 := mapE_map (unmarshalString "") Yaml.str i.ResourceNames (fun x _ => rfl)
  have h3 := mapE_map (unmarshalString "") Yaml.str i.ShapeNames (fun x _ => rfl)
  simp [marshalIgnoreSpec, unmarshalIgnoreSpec, foldE, stepIgnoreSpec, IgnoreSpec.zero,
    unmarshalStringSlice, h1, h2, h3]

/-- A serialized present UnpackAttributesMapConfig decodes into a nil
pointer as a fresh pointee. -/
theorem bridgeUnpack (u : UnpackAttributesMapConfig) (h : u.WF) :
    unmarshalOptInto UnpackAttributesMapConfig.zero unmarshalUnpackAttributesMapConfig none
      (marshalUnpackAttributesMapConfig u) = .ok (some u) := by
  have hrt := roundtripUnpackAttributesMapConfig u h
  simp only [marshalUnpackAttributesMapConfig] at hrt ⊢
  simp [unmarshalOptInto, hrt]

/-- A serialized present ExceptionsConfig decodes into a nil pointer as
a fresh pointee. -/
theorem bridgeExceptions (e : ExceptionsConfig) (h : e.WF) :
    unmarshalOptInto ExceptionsConfig.zero unmarshalExceptionsConfig none
      (marshalExceptionsConfig e) = .ok (some e) := by
  have hrt := roundtripExceptionsConfig e h
  simp only [marshalExceptionsConfig] at hrt ⊢
  simp [unmarshalOptInto, hrt]

/-- A serialized present RenamesConfig decodes into a nil pointer as a
fresh pointee. -/
theorem bridgeRenames (r : RenamesConfig) (h : r.WF) :
    unmarshalOptInto RenamesConfig.zero unmarshalRenamesConfig none
      (marshalRenamesConfig r) = .ok (some r) := by
  have hrt := roundtripRenamesConfig r h
  simp only [marshalRenamesConfig] at hrt ⊢
  simp [unmarshalOptInto, hrt]

/-- A serialized present ListOperationConfig decodes into a nil pointer
as a fresh pointee. -/
theorem bridgeListOperation (l : ListOperationConfig) :
    unmarshalOptInto ListOperationConfig.zero unmarshalListOperationConfig none
      (marshalListOperationConfig l) = .ok (some l) := by
  have hrt := roundtripListOperationConfig l
  simp only [marshalListOperationConfig] at hrt ⊢
  simp [unmarshalOptInto, hrt]

/-- Splitting a successful fold prefix off a concatenation. -/
theorem foldE_append_ok {α β : Type} (step : α → β → Except String α) (l₁ l₂ : List β)
    (acc a : α) (h : foldE step acc l₁ = .ok a) :
    foldE step acc (l₁ ++ l₂) = foldE step a l₂ := by
  rw [foldE_append, h]

/-- Processing the serialized `name_field` entry of a resource override
sets exactly the NameField pointer. -/
theorem foldE_optEntry_nameField (nf : Option String) (acc : ResourceGeneratorConfig)
    (hacc : acc.NameField = none) :
    foldE stepResourceGeneratorConfig acc (optEntry "name_field" (nf.map Yaml.str)) =
      .ok { acc with NameField := nf } := by
  cases nf with
  | none =>
    conv_rhs => rw [← hacc]
    rfl
  | some s => rfl

/-- Processing the serialized `unpack_attributes_map` entry of a
resource override sets exactly the UnpackAttributesMapConfig pointer. -/
theorem foldE_optEntry_unpack (up : Option UnpackAttributesMapConfig)
    (hWF : ∀ u, up = some u → u.WF) (acc : ResourceGeneratorConfig)
    (hacc : acc.UnpackAttributesMapConfig = none) :
    foldE stepResourceGeneratorConfig acc
      (optEntry "unpack_attributes_map" (up.map marshalUnpackAttributesMapConfig)) =
      .ok { acc with UnpackAttributesMapConfig := up } := by
  cases up with
  | none =>
    conv_rhs => rw [← hacc]
    rfl
  | some u =>
    have hb := bridgeUnpack u (hWF u rfl)
    rw [← hacc] at hb
    simp [optEntry, foldE, stepResourceGeneratorConfig, hb]

/-- Processing the serialized `exceptions` entry of a resource override
sets exactly the Exceptions pointer. -/
theorem foldE_optEntry_exceptions (ex : Option ExceptionsConfig)
    (hWF : ∀ e, ex = some e → e.WF) (acc : ResourceGeneratorConfig)
    (hacc : acc.Exceptions = none) :
    foldE stepResourceGeneratorConfig acc
      (optEntry "exceptions" (ex.map marshalExceptionsConfig)) =
      .ok { acc with Exceptions := ex } := by
  cases ex with
  | none =>
    conv_rhs => rw [← hacc]
    rfl
  | some e =>
    have hb := bridgeExceptions e (hWF e rfl)
    rw [← hacc] at hb
    simp [optEntry, foldE, stepResourceGeneratorConfig, hb]

/-- Processing the serialized `renames` entry of a resource override
sets exactly the Renames pointer. -/
theorem foldE_optEntry_renames (rn : Option RenamesConfig)
    (hWF : ∀ r, rn = some r → r.WF) (acc : ResourceGeneratorConfig)
    (hacc : acc.Renames = none) :
    foldE stepResourceGeneratorConfig acc
      (optEntry "renames" (rn.map marshalRenamesConfig)) =
      .ok { acc with Renames := rn } := by
  cases rn with
  | none =>
    conv_rhs => rw [← hacc]
    rfl
  | some r =>
    have hb := bridgeRenames r (hWF r rfl)
    rw [← hacc] at hb
    simp [optEntry, foldE, stepResourceGeneratorConfig, hb]

/-- Processing the serialized `list_operation` entry of a resource
override sets exactly the ListOperation pointer. -/
theorem foldE_optEntry_listOperation (lo : Option ListOperationConfig)
    (acc : ResourceGeneratorConfig) (hacc : acc.ListOperation = none) :
    foldE stepResourceGeneratorConfig acc
      (optEntry "list_operation" (lo.map marshalListOperationConfig)) =
      .ok { acc with ListOperation := lo } := by
  cases lo with
  | none =>
    conv_rhs => rw [← hacc]
    rfl
  | some l =>
    have hb := bridgeListOperation l
    rw [← hacc] at hb
    simp [optEntry, foldE, stepResourceGeneratorConfig, hb]

/-- Unmarshalling the serialized ResourceGeneratorConfig recovers it. -/
theorem roundtripResourceGeneratorConfig (rc : ResourceGeneratorConfig) (h : rc.WF) :
    unmarshalResourceGeneratorConfig ResourceGeneratorConfig.zero (marshalResourceGeneratorConfig rc) = .ok rc := by
  obtain ⟨hu, he, hr⟩ := h
  obtain ⟨nf, up, ex, rn, lo⟩ := rc
  show foldE stepResourceGeneratorConfig ResourceGeneratorConfig.zero _ = _
  rw [foldE_append_ok _ _ _ _ _ (foldE_optEntry_nameField nf ResourceGeneratorConfig.zero rfl),
    foldE_append_ok _ _ _ _ _ (foldE_optEntry_unpack up hu _ rfl),
    foldE_append_ok _ _ _ _ _ (foldE_optEntry_exceptions ex he _ rfl),
    foldE_append_ok _ _ _ _ _ (foldE_optEntry_renames rn hr _ rfl),
    foldE_optEntry_listOperation lo _ rfl]

/-- Unmarshalling the serialized GeneratorConfig recovers it. -/
theorem roundtripGeneratorConfig (gc : GeneratorConfig) (h : gc.WF) :
    unmarshalGeneratorConfig GeneratorConfig.zero (marshalGeneratorConfig gc) = .ok gc := by
  have hm := unmarshalMap_roundtrip Except.ok
    (unmarshalResourceGeneratorConfig ResourceGeneratorConfig.zero) (fun k => k)
    marshalResourceGeneratorConfig gc.Resources (fun p _ => rfl)
    (fun p hp => roundtripResourceGeneratorConfig p.2 (h.2 p hp)) h.1 [] (fun p _ => rfl)
  simp only [List.nil_append] at hm
  have hi := roundtripIgnoreSpec gc.Ignore
  simp [marshalGeneratorConfig, unmarshalGeneratorConfig, foldE, stepGeneratorConfig,
    GeneratorConfig.zero, hm, hi]

/-! ### Decidability of well-formedness (for concrete witnesses) -/

/-- A property of the value under an optional is decidable. -/
instance decidableOptionSome {α : Type} (P : α → Prop) [DecidablePred P] :
    (o : Option α) → Decidable (∀ x, o = some x → P x)
  | none => isTrue (fun _ h => nomatch h)
  | some a =>
    if h : P a then isTrue (fun x hx => by cases hx; exact h)
    else isFalse (fun hall => h (hall a rfl))

instance {κ α : Type} [DecidableEq κ] (l : List (κ × α)) : Decidable (KeysNodup l) :=
  inferInstanceAs (Decidable (l.map Prod.fst).Nodup)

instance (o : OperationRenamesConfig) : Decidable o.WF :=
  inferInstanceAs (Decidable (_ ∧ _))

instance (r : RenamesConfig) : Decidable r.WF :=
  inferInstanceAs (Decidable (_ ∧ ∀ p ∈ r.Operations, ∀ o, p.2 = some o → o.WF))

instance (u : UnpackAttributesMapConfig) : Decidable u.WF :=
  inferInstanceAs (Decidable (u.Fields.map Prod.fst).Nodup)

instance (e : ExceptionsConfig) : Decidable e.WF :=
  inferInstanceAs (Decidable (e.Codes.map Prod.fst).Nodup)

instance (rc : ResourceGeneratorConfig) : Decidable rc.WF :=
  inferInstanceAs (Decidable (_ ∧ _ ∧ _))

instance (gc : GeneratorConfig) : Decidable gc.WF :=
  inferInstanceAs (Decidable (_ ∧ ∀ p ∈ gc.Resources, p.2.WF))

/-! ### Type-well-formedness of documents

The loader rejects a document only for a type mismatch against the
expected shape.  The predicates below characterize, purely syntactically
on the document tree, the values each destination type accepts; they
mirror the decoders key for key. -/

/-- A value decodable into a Go bool (null or a boolean). -/
def wtBool : Yaml → Bool
  | .null => true
  | .bool _ => true
  | _ => false

/-- A value decodable into a Go string (null or a string). -/
def wtString : Yaml → Bool
  | .null => true
  | .str _ => true
  | _ => false

/-- A value decodable into a Go string slice. -/
def wtStringSlice : Yaml → Bool
  | .null => true
  | .arr items => items.all wtString
  | _ => false

/-- A value decodable into a Go map with the given key and value
conditions. -/
def wtMap (wtKey : String → Bool) (wtVal : Yaml → Bool) : Yaml → Bool
  | .null => true
  | .obj entries => entries.all (fun e => wtKey e.1 && wtVal e.2)
  | _ => false

/-- A value decodable into a Go pointer whose pointee satisfies the
given condition. -/
def wtOpt (wtVal : Yaml → Bool) : Yaml → Bool
  | .null => true
  | v => wtVal v

/-- A value decodable into FieldGeneratorConfig. -/
def wtFieldGeneratorConfig : Yaml → Bool
  | .null => true
  | .obj entries => entries.all (fun e =>
      if e.1 = "is_read_only" then wtBool e.2
      else if e.1 = "contains_owner_account_id" then wtBool e.2
      else true)
  | _ => false

/-- A value decodable into UnpackAttributesMapConfig. -/
def wtUnpackAttributesMapConfig : Yaml → Bool
  | .null => true
  | .obj entries => entries.all (fun e =>
      if e.1 = "fields" then wtMap (fun _ => true) wtFieldGeneratorConfig e.2
      else true)
  | _ => false

/-- A value decodable into ExceptionsConfig: every key under `codes`
must parse as an integer. -/
def wtExceptionsConfig : Yaml → Bool
  | .null => true
  | .obj entries => entries.all (fun e =>
      if e.1 = "codes" then wtMap (fun k => (parseIntKey? k).isSome) wtString e.2
      else true)
  | _ => false

/-- A value decodable into OperationRenamesConfig. -/
def wtOperationRenamesConfig : Yaml → Bool
  | .null => true
  | .obj entries => entries.all (fun e =>
      if e.1 = "input_fields" then wtMap (fun _ => true) wtString e.2
      else if e.1 = "output_fields" then wtMap (fun _ => true) wtString e.2
      else true)
  | _ => false

/-- A value decodable into RenamesConfig. -/
def wtRenamesConfig : Yaml → Bool
  | .null => true
  | .obj entries => entries.all (fun e =>
      if e.1 = "operations" then wtMap (fun _ => true) (wtOpt wtOperationRenamesConfig) e.2
      else true)
  | _ => false

/-- A value decodable into ListOperationConfig. -/
def wtListOperationConfig : Yaml → Bool
  | .null => true
  | .obj entries => entries.all (fun e =>
      if e.1 = "match_fields" then wtStringSlice e.2
      else true)
  | _ => false

/-- A value decodable into ResourceGeneratorConfig. -/
def wtResourceGeneratorConfig : Yaml → Bool
  | .null => true
  | .obj entries => entries.all (fun e =>
      if e.1 = "name_field" then wtOpt wtString e.2
      else if e.1 = "unpack_attributes_map" then wtOpt wtUnpackAttributesMapConfig e.2
      else if e.1 = "exceptions" then wtOpt wtExceptionsConfig e.2
      else if e.1 = "renames" then wtOpt wtRenamesConfig e.2
      else if e.1 = "list_operation" then wtOpt wtListOperationConfig e.2
      else true)
  | _ => false

/-- A value decodable into IgnoreSpec. -/
def wtIgnoreSpec : Yaml → Bool
  | .null => true
  | .obj entries => entries.all (fun e =>
      if e.1 = "operations" then wtStringSlice e.2
      else if e.1 = "resource_names" then wtStringSlice e.2
      else if e.1 = "shape_names" then wtStringSlice e.2
      else true)
  | _ => false

/-- A document decodable into GeneratorConfig: type-well-formed on all
the keys the schema knows. -/
def wtGeneratorConfig : Yaml → Bool
  | .null => true
  | .obj entries => entries.all (fun e =>
      if e.1 = "resources" then wtMap (fun _ => true) wtResourceGeneratorConfig e.2
      else if e.1 = "ignore" then wtIgnoreSpec e.2
      else true)
  | _ => false

/-! ### Well-typed documents decode successfully -/

/-- A traversal over elements that all decode succeeds. -/
theorem mapE_ok_of_all {α β : Type} (f : β → Except String α) (l : List β)
    (h : ∀ b ∈ l, ∃ a, f b = .ok a) : ∃ res, mapE f l = .ok res := by
  induction l with
  | nil => exact ⟨[], rfl⟩
  | cons b l ih =>
    obtain ⟨a, ha⟩ := h b (List.mem_cons_self b l)
    obtain ⟨res, hres⟩ := ih (fun c hc => h c (List.mem_cons_of_mem b hc))
    exact ⟨a :: res, by simp [mapE, ha, hres]⟩

/-- A well-typed value decodes into a bool. -/
theorem unmarshalBool_ok (v : Yaml) (h : wtBool v = true) (cur : Bool) :
    ∃ b, unmarshalBool cur v = .ok b := by
  cases v with
  | null => exact ⟨cur, rfl⟩
  | bool b => exact ⟨b, rfl⟩
  | int n => simp [wtBool] at h
  | str s => simp [wtBool] at h
  | arr l => simp [wtBool] at h
  | obj l => simp [wtBool] at h

/-- A well-typed value decodes into a string. -/
theorem unmarshalString_ok (v : Yaml) (h : wtString v = true) (cur : String) :
    ∃ s, unmarshalString cur v = .ok s := by
  cases v with
  | null => exact ⟨cur, rfl⟩
  | str s => exact ⟨s, rfl⟩
  | int n => simp [wtString] at h
  | bool b => simp [wtString] at h
  | arr l => simp [wtString] at h
  | obj l => simp [wtString] at h

/-- A well-typed value decodes into a string slice. -/
theorem unmarshalStringSlice_ok (v : Yaml) (h : wtStringSlice v = true) (cur : List String) :
    ∃ l, unmarshalStringSlice cur v = .ok l := by
  cases v with
  | null => exact ⟨[], rfl⟩
  | arr items =>
    simp only [wtStringSlice, List.all_eq_true] at h
    obtain ⟨res, hres⟩ := mapE_ok_of_all (unmarshalString "") items
      (fun b hb => unmarshalString_ok b (h b hb) "")
    exact ⟨res, by simp [unmarshalStringSlice, hres]⟩
  | int n => simp [wtStringSlice] at h
  | bool b => simp [wtStringSlice] at h
  | str s => simp [wtStringSlice] at h
  | obj l => simp [wtStringSlice] at h

/-- A well-typed value decodes into a map. -/
theorem unmarshalMap_ok {κ α : Type} [DecidableEq κ]
    (decodeKey : String → Except String κ) (decodeVal : Yaml → Except String α)
    (wtKey : String → Bool) (wtVal : Yaml → Bool)
    (hkey : ∀ k, wtKey k = true → ∃ x, decodeKey k = .ok x)
    (hval : ∀ v, wtVal v = true → ∃ a, decodeVal v = .ok a)
    (v : Yaml) (h : wtMap wtKey wtVal v = true) (cur : List (κ × α)) :
    ∃ m, unmarshalMap decodeKey decodeVal cur v = .ok m := by
  cases v with
  | null => exact ⟨[], rfl⟩
  | obj entries =>
    simp only [wtMap, List.all_eq_true, Bool.and_eq_true] at h
    refine (foldE_ok_of_all _ entries ?_ cur).imp (fun r hr => by simpa [unmarshalMap] using hr)
    intro acc b hb
    obtain ⟨x, hx⟩ := hkey b.1 (h b hb).1
    obtain ⟨a, ha⟩ := hval b.2 (h b hb).2
    exact ⟨upsert x a acc, by simp [mapStep, hx, ha]⟩
  | int n => simp [wtMap] at h
  | bool b => simp [wtMap] at h
  | str s => simp [wtMap] at h
  | arr l => simp [wtMap] at h

/-- A well-typed value decodes into a pointer. -/
theorem unmarshalOptInto_ok {α : Type} (zeroVal : α) (decode : α → Yaml → Except String α)
    (wtVal : Yaml → Bool)
    (hdec : ∀ v, wtVal v = true → ∀ c, ∃ x, decode c v = .ok x)
    (v : Yaml) (h : wtOpt wtVal v = true) (cur : Option α) :
    ∃ p, unmarshalOptInto zeroVal decode cur v = .ok p := by
  cases v
  case null => exact ⟨none, rfl⟩
  all_goals
    obtain ⟨x, hx⟩ := hdec _ (by simpa [wtOpt] using h) (cur.getD zeroVal)
    exact ⟨some x, by simp [unmarshalOptInto, hx]⟩

/-- A well-typed value decodes into FieldGeneratorConfig. -/
theorem unmarshalFieldGeneratorConfig_ok (v : Yaml) (h : wtFieldGeneratorConfig v = true)
    (cur : FieldGeneratorConfig) : ∃ f, unmarshalFieldGeneratorConfig cur v = .ok f := by
  cases v with
  | null => exact ⟨cur, rfl⟩
  | obj entries =>
    simp only [wtFieldGeneratorConfig, List.all_eq_true] at h
    refine (foldE_ok_of_all _ entries ?_ cur).imp
      (fun r hr => by simpa [unmarshalFieldGeneratorConfig] using hr)
    intro acc b hb
    have hb2 := h b hb
    unfold stepFieldGeneratorConfig
    by_cases h1 : b.1 = "is_read_only"
    · rw [if_pos h1] at hb2 ⊢
      obtain ⟨x, hx⟩ := unmarshalBool_ok b.2 hb2 acc.IsReadOnly
      exact ⟨{ acc with IsReadOnly := x }, by rw [hx]⟩
    · rw [if_neg h1] at hb2 ⊢
      by_cases h2 : b.1 = "contains_owner_account_id"
      · rw [if_pos h2] at hb2 ⊢
        obtain ⟨x, hx⟩ := unmarshalBool_ok b.2 hb2 acc.ContainsOwnerAccountID
        exact ⟨{ acc with ContainsOwnerAccountID := x }, by rw [hx]⟩
      · rw [if_neg h2]
        exact ⟨acc, rfl⟩
  | int n => simp [wtFieldGeneratorConfig] at h
  | bool b => simp [wtFieldGeneratorConfig] at h
  | str s => simp [wtFieldGeneratorConfig] at h
  | arr l => simp [wtFieldGeneratorConfig] at h

/-- A well-typed value decodes into UnpackAttributesMapConfig. -/
theorem unmarshalUnpackAttributesMapConfig_ok (v : Yaml)
    (h : wtUnpackAttributesMapConfig v = true) (cur : UnpackAttributesMapConfig) :
    ∃ u, unmarshalUnpackAttributesMapConfig cur v = .ok u := by
  cases v with
  | null => exact ⟨cur, rfl⟩
  | obj entries =>
    simp only [wtUnpackAttributesMapConfig, List.all_eq_true] at h
    refine (foldE_ok_of_all _ entries ?_ cur).imp
      (fun r hr => by simpa [unmarshalUnpackAttributesMapConfig] using hr)
    intro acc b hb
    have hb2 := h b hb
    unfold stepUnpackAttributesMapConfig
    by_cases h1 : b.1 = "fields"
    · rw [if_pos h1] at hb2 ⊢
      obtain ⟨m, hm⟩ := unmarshalMap_ok Except.ok
        (unmarshalFieldGeneratorConfig FieldGeneratorConfig.zero) (fun _ => true)
        wtFieldGeneratorConfig (fun k _ => ⟨k, rfl⟩)
        (fun w hw => unmarshalFieldGeneratorConfig_ok w hw FieldGeneratorConfig.zero)
        b.2 hb2 acc.Fields
      exact ⟨{ acc with Fields := m }, by rw [hm]⟩
    · rw [if_neg h1]
      exact ⟨acc, rfl⟩
  | int n => simp [wtUnpackAttributesMapConfig] at h
  | bool b => simp [wtUnpackAttributesMapConfig] at h
  | str s => simp [wtUnpackAttributesMapConfig] at h
  | arr l => simp [wtUnpackAttributesMapConfig] at h

/-- A well-typed value decodes into ExceptionsConfig. -/
theorem unmarshalExceptionsConfig_ok (v : Yaml) (h : wtExceptionsConfig v = true)
    (cur : ExceptionsConfig) : ∃ e, unmarshalExceptionsConfig cur v = .ok e := by
  cases v with
  | null => exact ⟨cur, rfl⟩
  | obj entries =>
    simp only [wtExceptionsConfig, List.all_eq_true] at h
    refine (foldE_ok_of_all _ entries ?_ cur).imp
      (fun r hr => by simpa [unmarshalExceptionsConfig] using hr)
    intro acc b hb
    have hb2 := h b hb
    unfold stepExceptionsConfig
    by_cases h1 : b.1 = "codes"
    · rw [if_pos h1] at hb2 ⊢
      obtain ⟨m, hm⟩ := unmarshalMap_ok decodeIntKey (unmarshalString "")
        (fun k => (parseIntKey? k).isSome) wtString
        (fun k hk => by
          obtain ⟨n, hn⟩ := Option.isSome_iff_exists.mp hk
          exact ⟨n, by simp [decodeIntKey, hn]⟩)
        (fun w hw => unmarshalString_ok w hw "")
        b.2 hb2 acc.Codes
      exact ⟨{ acc with Codes := m }, by rw [hm]⟩
    · rw [if_neg h1]
      exact ⟨acc, rfl⟩
  | int n => simp [wtExceptionsConfig] at h
  | bool b => simp [wtExceptionsConfig] at h
  | str s => simp [wtExceptionsConfig] at h
  | arr l => simp [wtExceptionsConfig] at h

/-- A well-typed value decodes into OperationRenamesConfig. -/
theorem unmarshalOperationRenamesConfig_ok (v : Yaml)
    (h : wtOperationRenamesConfig v = true) (cur : OperationRenamesConfig) :
    ∃ o, unmarshalOperationRenamesConfig cur v = .ok o := by
  cases v with
  | null => exact ⟨cur, rfl⟩
  | obj entries =>
    simp only [wtOperationRenamesConfig, List.all_eq_true] at h
    refine (foldE_ok_of_all _ entries ?_ cur).imp
      (fun r hr => by simpa [unmarshalOperationRenamesConfig] using hr)
    intro acc b hb
    have hb2 := h b hb
    unfold stepOperationRenamesConfig
    by_cases h1 : b.1 = "input_fields"
    · rw [if_pos h1] at hb2 ⊢
      obtain ⟨m, hm⟩ := unmarshalMap_ok Except.ok (unmarshalString "") (fun _ => true) wtString
        (fun k _ => ⟨k, rfl⟩) (fun w hw => unmarshalString_ok w hw "") b.2 hb2 acc.InputFields
      exact ⟨{ acc with InputFields := m }, by rw [hm]⟩
    · rw [if_neg h1] at hb2 ⊢
      by_cases h2 : b.1 = "output_fields"
      · rw [if_pos h2] at hb2 ⊢
        obtain ⟨m, hm⟩ := unmarshalMap_ok Except.ok (unmarshalString "") (fun _ => true) wtString
          (fun k _ => ⟨k, rfl⟩) (fun w hw => unmarshalString_ok w hw "") b.2 hb2 acc.OutputFields
        exact ⟨{ acc with OutputFields := m }, by rw [hm]⟩
      · rw [if_neg h2]
        exact ⟨acc, rfl⟩
  | int n => simp [wtOperationRenamesConfig] at h
  | bool b => simp [wtOperationRenamesConfig] at h
  | str s => simp [wtOperationRenamesConfig] at h
  | arr l => simp [wtOperationRenamesConfig] at h

/-- A well-typed value decodes into RenamesConfig. -/
theorem unmarshalRenamesConfig_ok (v : Yaml) (h : wtRenamesConfig v = true)
    (cur : RenamesConfig) : ∃ r, unmarshalRenamesConfig cur v = .ok r := by
  cases v with
  | null => exact ⟨cur, rfl⟩
  | obj entries =>
    simp only [wtRenamesConfig, List.all_eq_true] at h
    refine (foldE_ok_of_all _ entries ?_ cur).imp
      (fun r hr => by simpa [unmarshalRenamesConfig] using hr)
    intro acc b hb
    have hb2 := h b hb
    unfold stepRenamesConfig
    by_cases h1 : b.1 = "operations"
    · rw [if_pos h1] at hb2 ⊢
      obtain ⟨m, hm⟩ := unmarshalMap_ok Except.ok
        (unmarshalOptInto OperationRenamesConfig.zero unmarshalOperationRenamesConfig none)
        (fun _ => true) (wtOpt wtOperationRenamesConfig) (fun k _ => ⟨k, rfl⟩)
        (fun w hw => unmarshalOptInto_ok OperationRenamesConfig.zero
          unmarshalOperationRenamesConfig wtOperationRenamesConfig
          (fun w2 hw2 c => unmarshalOperationRenamesConfig_ok w2 hw2 c) w hw none)
        b.2 hb2 acc.Operations
      exact ⟨{ acc with Operations := m }, by rw [hm]⟩
    · rw [if_neg h1]
      exact ⟨acc, rfl⟩
  | int n => simp [wtRenamesConfig] at h
  | bool b => simp [wtRenamesConfig] at h
  | str s => simp [wtRenamesConfig] at h
  | arr l => simp [wtRenamesConfig] at h

/-- A well-typed value decodes into ListOperationConfig. -/
theorem unmarshalListOperationConfig_ok (v : Yaml) (h : wtListOperationConfig v = true)
    (cur : ListOperationConfig) : ∃ l, unmarshalListOperationConfig cur v = .ok l := by
  cases v with
  | null => exact ⟨cur, rfl⟩
  | obj entries =>
    simp only [wtListOperationConfig, List.all_eq_true] at h
    refine (foldE_ok_of_all _ entries ?_ cur).imp
      (fun r hr => by simpa [unmarshalListOperationConfig] using hr)
    intro acc b hb
    have hb2 := h b hb
    unfold stepListOperationConfig
    by_cases h1 : b.1 = "match_fields"
    · rw [if_pos h1] at hb2 ⊢
      obtain ⟨l, hl⟩ := unmarshalStringSlice_ok b.2 hb2 acc.MatchFields
      exact ⟨{ acc with MatchFields := l }, by rw [hl]⟩
    · rw [if_neg h1]
      exact ⟨acc, rfl⟩
  | int n => simp [wtListOperationConfig] at h
  | bool b => simp [wtListOperationConfig] at h
  | str s => simp [wtListOperationConfig] at h
  | arr l => simp [wtListOperationConfig] at h

/-- A well-typed value decodes into ResourceGeneratorConfig. -/
theorem unmarshalResourceGeneratorConfig_ok (v : Yaml)
    (h : wtResourceGeneratorConfig v = true) (cur : ResourceGeneratorConfig) :
    ∃ rc, unmarshalResourceGeneratorConfig cur v = .ok rc := by
  cases v with
  | null => exact ⟨cur, rfl⟩
  | obj entries =>
    simp only [wtResourceGeneratorConfig, List.all_eq_true] at h
    refine (foldE_ok_of_all _ entries ?_ cur).imp
      (fun r hr => by simpa [unmarshalResourceGeneratorConfig] using hr)
    intro acc b hb
    have hb2 := h b hb
    unfold stepResourceGeneratorConfig
    by_cases h1 : b.1 = "name_field"
    · rw [if_pos h1] at hb2 ⊢
      obtain ⟨p, hp⟩ := unmarshalOptInto_ok "" unmarshalString wtString
        (fun w hw c => unmarshalString_ok w hw c) b.2 hb2 acc.NameField
      exact ⟨{ acc with NameField := p }, by rw [hp]⟩
    · rw [if_neg h1] at hb2 ⊢
      by_cases h2 : b.1 = "unpack_attributes_map"
      · rw [if_pos h2] at hb2 ⊢
        obtain ⟨p, hp⟩ := unmarshalOptInto_ok UnpackAttributesMapConfig.zero
          unmarshalUnpackAttributesMapConfig wtUnpackAttributesMapConfig
          (fun w hw c => unmarshalUnpackAttributesMapConfig_ok w hw c) b.2 hb2
          acc.UnpackAttributesMapConfig
        exact ⟨{ acc with UnpackAttributesMapConfig := p }, by rw [hp]⟩
      · rw [if_neg h2] at hb2 ⊢
        by_cases h3 : b.1 = "exceptions"
        · rw [if_pos h3] at hb2 ⊢
          obtain ⟨p, hp⟩ := unmarshalOptInto_ok ExceptionsConfig.zero unmarshalExceptionsConfig
            wtExceptionsConfig (fun w hw c => unmarshalExceptionsConfig_ok w hw c) b.2 hb2
            acc.Exceptions
          exact ⟨{ acc with Exceptions := p }, by rw [hp]⟩
        · rw [if_neg h3] at hb2 ⊢
          by_cases h4 : b.1 = "renames"
          · rw [if_pos h4] at hb2 ⊢
            obtain ⟨p, hp⟩ := unmarshalOptInto_ok RenamesConfig.zero unmarshalRenamesConfig
              wtRenamesConfig (fun w hw c => unmarshalRenamesConfig_ok w hw c) b.2 hb2 acc.Renames
            exact ⟨{ acc with Renames := p }, by rw [hp]⟩
          · rw [if_neg h4] at hb2 ⊢
            by_cases h5 : b.1 = "list_operation"
            · rw [if_pos h5] at hb2 ⊢
              obtain ⟨p, hp⟩ := unmarshalOptInto_ok ListOperationConfig.zero
                unmarshalListOperationConfig wtListOperationConfig
                (fun w hw c => unmarshalListOperationConfig_ok w hw c) b.2 hb2 acc.ListOperation
              exact ⟨{ acc with ListOperation := p }, by rw [hp]⟩
            · rw [if_neg h5]
              exact ⟨acc, rfl⟩
  | int n => simp [wtResourceGeneratorConfig] at h
  | bool b => simp [wtResourceGeneratorConfig] at h
  | str s => simp [wtResourceGeneratorConfig] at h
  | arr l => simp [wtResourceGeneratorConfig] at h

/-- A well-typed value decodes into IgnoreSpec. -/
theorem unmarshalIgnoreSpec_ok (v : Yaml) (h : wtIgnoreSpec v = true) (cur : IgnoreSpec) :
    ∃ i, unmarshalIgnoreSpec cur v = .ok i := by
  cases v with
  | null => exact ⟨cur, rfl⟩
  | obj entries =>
    simp only [wtIgnoreSpec, List.all_eq_true] at h
    refine (foldE_ok_of_all _ entries ?_ cur).imp
      (fun r hr => by simpa [unmarshalIgnoreSpec] using hr)
    intro acc b hb
    have hb2 := h b hb
    unfold stepIgnoreSpec
    by_cases h1 : b.1 = "operations"
    · rw [if_pos h1] at hb2 ⊢
      obtain ⟨l, hl⟩ := unmarshalStringSlice_ok b.2 hb2 acc.Operations
      exact ⟨{ acc with Operations := l }, by rw [hl]⟩
    · rw [if_neg h1] at hb2 ⊢
      by_cases h2 : b.1 = "resource_names"
      · rw [if_pos h2] at hb2 ⊢
        obtain ⟨l, hl⟩ := unmarshalStringSlice_ok b.2 hb2 acc.ResourceNames
        exact ⟨{ acc with ResourceNames := l }, by rw [hl]⟩
      · rw [if_neg h2] at hb2 ⊢
        by_cases h3 : b.1 = "shape_names"
        · rw [if_pos h3] at hb2 ⊢
          obtain ⟨l, hl⟩ := unmarshalStringSlice_ok b.2 hb2 acc.ShapeNames
          exact ⟨{ acc with ShapeNames := l }, by rw [hl]⟩
        · rw [if_neg h3]
          exact ⟨acc, rfl⟩
  | int n => simp [wtIgnoreSpec] at h
  | bool b => simp [wtIgnoreSpec] at h
  | str s => simp [wtIgnoreSpec] at h
  | arr l => simp [wtIgnoreSpec] at h

/-- A well-typed document decodes into GeneratorConfig. -/
theorem unmarshalGeneratorConfig_ok (v : Yaml) (h : wtGeneratorConfig v = true)
    (cur : GeneratorConfig) : ∃ gc, unmarshalGeneratorConfig cur v = .ok gc := by
  cases v with
  | null => exact ⟨cur, rfl⟩
  | obj entries =>
    simp only [wtGeneratorConfig, List.all_eq_true] at h
    refine (foldE_ok_of_all _ entries ?_ cur).imp
      (fun r hr => by simpa [unmarshalGeneratorConfig] using hr)
    intro acc b hb
    have hb2 := h b hb
    unfold stepGeneratorConfig
    by_cases h1 : b.1 = "resources"
    · rw [if_pos h1] at hb2 ⊢
      obtain ⟨m, hm⟩ := unmarshalMap_ok Except.ok
        (unmarshalResourceGeneratorConfig ResourceGeneratorConfig.zero) (fun _ => true)
        wtResourceGeneratorConfig (fun k _ => ⟨k, rfl⟩)
        (fun w hw => unmarshalResourceGeneratorConfig_ok w hw ResourceGeneratorConfig.zero)
        b.2 hb2 acc.Resources
      exact ⟨{ acc with Resources := m }, by rw [hm]⟩
    · rw [if_neg h1] at hb2 ⊢
      by_cases h2 : b.1 = "ignore"
      · rw [if_pos h2] at hb2 ⊢
        obtain ⟨i, hi⟩ := unmarshalIgnoreSpec_ok b.2 hb2 acc.Ignore
        exact ⟨{ acc with Ignore := i }, by rw [hi]⟩
      · rw [if_neg h2]
        exact ⟨acc, rfl⟩
  | int n => simp [wtGeneratorConfig] at h
  | bool b => simp [wtGeneratorConfig] at h
  | str s => simp [wtGeneratorConfig] at h
  | arr l => simp [wtGeneratorConfig] at h

/-! ### Field preservation, unknown keys, and error propagation -/

/-- A key is unbound exactly when no entry carries it. -/
theorem lookupKey_eq_none {κ α : Type} [DecidableEq κ] (k : κ) (l : List (κ × α)) :
    lookupKey k l = none ↔ ∀ e ∈ l, e.1 ≠ k := by
  induction l with
  | nil => simp [lookupKey]
  | cons p l ih =>
    obtain ⟨k', v⟩ := p
    by_cases hk : k' = k
    · simp [lookupKey, hk]
    · simp [lookupKey, hk, ih]

/-- A top-level entry only writes the field its key names. -/
theorem stepGeneratorConfig_preserves (acc r : GeneratorConfig) (e : String × Yaml)
    (h : stepGeneratorConfig acc e = .ok r) :
    (e.1 ≠ "resources" → r.Resources = acc.Resources) ∧
    (e.1 ≠ "ignore" → r.Ignore = acc.Ignore) := by
  unfold stepGeneratorConfig at h
  by_cases h1 : e.1 = "resources"
  · rw [if_pos h1] at h
    cases hu : unmarshalMap Except.ok (unmarshalResourceGeneratorConfig ResourceGeneratorConfig.zero) acc.Resources e.2 with
    | error msg => rw [hu] at h; cases h
    | ok m =>
      rw [hu] at h
      cases h
      exact ⟨fun hc => absurd h1 hc, fun _ => rfl⟩
  · rw [if_neg h1] at h
    by_cases h2 : e.1 = "ignore"
    · rw [if_pos h2] at h
      cases hu : unmarshalIgnoreSpec acc.Ignore e.2 with
      | error msg => rw [hu] at h; cases h
      | ok i =>
        rw [hu] at h
        cases h
        exact ⟨fun _ => rfl, fun hc => absurd h2 hc⟩
    · rw [if_neg h2] at h
      cases h
      exact ⟨fun _ => rfl, fun _ => rfl⟩

/-- A resource-override entry only writes the field its key names. -/
theorem stepResourceGeneratorConfig_preserves (acc r : ResourceGeneratorConfig)
    (e : String × Yaml) (h : stepResourceGeneratorConfig acc e = .ok r) :
    (e.1 ≠ "name_field" → r.NameField = acc.NameField) ∧
    (e.1 ≠ "unpack_attributes_map" → r.UnpackAttributesMapConfig = acc.UnpackAttributesMapConfig) ∧
    (e.1 ≠ "exceptions" → r.Exceptions = acc.Exceptions) ∧
    (e.1 ≠ "renames" → r.Renames = acc.Renames) ∧
    (e.1 ≠ "list_operation" → r.ListOperation = acc.ListOperation) := by
  unfold stepResourceGeneratorConfig at h
  by_cases h1 : e.1 = "name_field"
  · rw [if_pos h1] at h
    cases hu : unmarshalOptInto "" unmarshalString acc.NameField e.2 with
    | error msg => rw [hu] at h; cases h
    | ok p =>
      rw [hu] at h; cases h
      exact ⟨fun hc => absurd h1 hc, fun _ => rfl, fun _ => rfl, fun _ => rfl, fun _ => rfl⟩
  · rw [if_neg h1] at h
    by_cases h2 : e.1 = "unpack_attributes_map"
    · rw [if_pos h2] at h
      cases hu : unmarshalOptInto UnpackAttributesMapConfig.zero unmarshalUnpackAttributesMapConfig acc.UnpackAttributesMapConfig e.2 with
      | error msg => rw [hu] at h; cases h
      | ok p =>
        rw [hu] at h; cases h
        exact ⟨fun _ => rfl, fun hc => absurd h2 hc, fun _ => rfl, fun _ => rfl, fun _ => rfl⟩
    · rw [if_neg h2] at h
      by_cases h3 : e.1 = "exceptions"
      · rw [if_pos h3] at h
        cases hu : unmarshalOptInto ExceptionsConfig.zero unmarshalExceptionsConfig acc.Exceptions e.2 with
        | error msg => rw [hu] at h; cases h
        | ok p =>
          rw [hu] at h; cases h
          exact ⟨fun _ => rfl, fun _ => rfl, fun hc => absurd h3 hc, fun _ => rfl, fun _ => rfl⟩
      · rw [if_neg h3] at h
        by_cases h4 : e.1 = "renames"
        · rw [if_pos h4] at h
          cases hu : unmarshalOptInto RenamesConfig.zero unmarshalRenamesConfig acc.Renames e.2 with
          | error msg => rw [hu] at h; cases h
          | ok p =>
            rw [hu] at h; cases h
            exact ⟨fun _ => rfl, fun _ => rfl, fun _ => rfl, fun hc => absurd h4 hc, fun _ => rfl⟩
        · rw [if_neg h4] at h
          by_cases h5 : e.1 = "list_operation"
          · rw [if_pos h5] at h
            cases hu : unmarshalOptInto ListOperationConfig.zero unmarshalListOperationConfig acc.ListOperation e.2 with
            | error msg => rw [hu] at h; cases h
            | ok p =>
              rw [hu] at h; cases h
              exact ⟨fun _ => rfl, fun _ => rfl, fun _ => rfl, fun _ => rfl, fun hc => absurd h5 hc⟩
          · rw [if_neg h5] at h
            cases h
            exact ⟨fun _ => rfl, fun _ => rfl, fun _ => rfl, fun _ => rfl, fun _ => rfl⟩

/-- An attribute-entry only writes the flag its key names. -/
theorem stepFieldGeneratorConfig_preserves (acc r : FieldGeneratorConfig)
    (e : String × Yaml) (h : stepFieldGeneratorConfig acc e = .ok r) :
    (e.1 ≠ "is_read_only" → r.IsReadOnly = acc.IsReadOnly) ∧
    (e.1 ≠ "contains_owner_account_id" → r.ContainsOwnerAccountID = acc.ContainsOwnerAccountID) := by
  unfold stepFieldGeneratorConfig at h
  by_cases h1 : e.1 = "is_read_only"
  · rw [if_pos h1] at h
    cases hu : unmarshalBool acc.IsReadOnly e.2 with
    | error msg => rw [hu] at h; cases h
    | ok b =>
      rw [hu] at h; cases h
      exact ⟨fun hc => absurd h1 hc, fun _ => rfl⟩
  · rw [if_neg h1] at h
    by_cases h2 : e.1 = "contains_owner_account_id"
    · rw [if_pos h2] at h
      cases hu : unmarshalBool acc.ContainsOwnerAccountID e.2 with
      | error msg => rw [hu] at h; cases h
      | ok b =>
        rw [hu] at h; cases h
        exact ⟨fun _ => rfl, fun hc => absurd h2 hc⟩
    · rw [if_neg h2] at h
      cases h
      exact ⟨fun _ => rfl, fun _ => rfl⟩

/-- Over entries that never name `name_field`, NameField is preserved. -/
theorem foldResource_NameField (entries : List (String × Yaml))
    (hk : ∀ e ∈ entries, e.1 ≠ "name_field") (acc r : ResourceGeneratorConfig)
    (h : foldE stepResourceGeneratorConfig acc entries = .ok r) : r.NameField = acc.NameField :=
  foldE_preserves _ entries (fun a => a.NameField = acc.NameField)
    (fun a b r' hb hP hstep =>
      ((stepResourceGeneratorConfig_preserves a r' b hstep).1 (hk b hb)).trans hP)
    acc r rfl h

/-- Over entries that never name `unpack_attributes_map`, that pointer
is preserved. -/
theorem foldResource_Unpack (entries : List (String × Yaml))
    (hk : ∀ e ∈ entries, e.1 ≠ "unpack_attributes_map") (acc r : ResourceGeneratorConfig)
    (h : foldE stepResourceGeneratorConfig acc entries = .ok r) :
    r.UnpackAttributesMapConfig = acc.UnpackAttributesMapConfig :=
  foldE_preserves _ entries (fun a => a.UnpackAttributesMapConfig = acc.UnpackAttributesMapConfig)
    (fun a b r' hb hP hstep =>
      ((stepResourceGeneratorConfig_preserves a r' b hstep).2.1 (hk b hb)).trans hP)
    acc r rfl h

/-- Over entries that never name `exceptions`, that pointer is
preserved. -/
theorem foldResource_Exceptions (entries : List (String × Yaml))
    (hk : ∀ e ∈ entries, e.1 ≠ "exceptions") (acc r : ResourceGeneratorConfig)
    (h : foldE stepResourceGeneratorConfig acc entries = .ok r) : r.Exceptions = acc.Exceptions :=
  foldE_preserves _ entries (fun a => a.Exceptions = acc.Exceptions)
    (fun a b r' hb hP hstep =>
      ((stepResourceGeneratorConfig_preserves a r' b hstep).2.2.1 (hk b hb)).trans hP)
    acc r rfl h

/-- Over entries that never name `renames`, that pointer is preserved. -/
theorem foldResource_Renames (entries : List (String × Yaml))
    (hk : ∀ e ∈ entries, e.1 ≠ "renames") (acc r : ResourceGeneratorConfig)
    (h : foldE stepResourceGeneratorConfig acc entries = .ok r) : r.Renames = acc.Renames :=
  foldE_preserves _ entries (fun a => a.Renames = acc.Renames)
    (fun a b r' hb hP hstep =>
      ((stepResourceGeneratorConfig_preserves a r' b hstep).2.2.2.1 (hk b hb)).trans hP)
    acc r rfl h

/-- Over entries that never name `list_operation`, that pointer is
preserved. -/
theorem foldResource_ListOperation (entries : List (String × Yaml))
    (hk : ∀ e ∈ entries, e.1 ≠ "list_operation") (acc r : ResourceGeneratorConfig)
    (h : foldE stepResourceGeneratorConfig acc entries = .ok r) : r.ListOperation = acc.ListOperation :=
  foldE_preserves _ entries (fun a => a.ListOperation = acc.ListOperation)
    (fun a b r' hb hP hstep =>
      ((stepResourceGeneratorConfig_preserves a r' b hstep).2.2.2.2 (hk b hb)).trans hP)
    acc r rfl h

/-- Over entries that never name `resources`, Resources is preserved. -/
theorem foldGC_Resources (entries : List (String × Yaml))
    (hk : ∀ e ∈ entries, e.1 ≠ "resources") (acc r : GeneratorConfig)
    (h : foldE stepGeneratorConfig acc entries = .ok r) : r.Resources = acc.Resources :=
  foldE_preserves _ entries (fun a => a.Resources = acc.Resources)
    (fun a b r' hb hP hstep =>
      ((stepGeneratorConfig_preserves a r' b hstep).1 (hk b hb)).trans hP)
    acc r rfl h

/-- Over entries that never name `ignore`, Ignore is preserved. -/
theorem foldGC_Ignore (entries : List (String × Yaml))
    (hk : ∀ e ∈ entries, e.1 ≠ "ignore") (acc r : GeneratorConfig)
    (h : foldE stepGeneratorConfig acc entries = .ok r) : r.Ignore = acc.Ignore :=
  foldE_preserves _ entries (fun a => a.Ignore = acc.Ignore)
    (fun a b r' hb hP hstep =>
      ((stepGeneratorConfig_preserves a r' b hstep).2 (hk b hb)).trans hP)
    acc r rfl h

/-- Over entries that never name `is_read_only`, IsReadOnly is
preserved. -/
theorem foldField_IsReadOnly (entries : List (String × Yaml))
    (hk : ∀ e ∈ entries, e.1 ≠ "is_read_only") (acc r : FieldGeneratorConfig)
    (h : foldE stepFieldGeneratorConfig acc entries = .ok r) : r.IsReadOnly = acc.IsReadOnly :=
  foldE_preserves _ entries (fun a => a.IsReadOnly = acc.IsReadOnly)
    (fun a b r' hb hP hstep =>
      ((stepFieldGeneratorConfig_preserves a r' b hstep).1 (hk b hb)).trans hP)
    acc r rfl h

/-- Over entries that never name `contains_owner_account_id`, that flag
is preserved. -/
theorem foldField_Owner (entries : List (String × Yaml))
    (hk : ∀ e ∈ entries, e.1 ≠ "contains_owner_account_id") (acc r : FieldGeneratorConfig)
    (h : foldE stepFieldGeneratorConfig acc entries = .ok r) :
    r.ContainsOwnerAccountID = acc.ContainsOwnerAccountID :=
  foldE_preserves _ entries (fun a => a.ContainsOwnerAccountID = acc.ContainsOwnerAccountID)
    (fun a b r' hb hP hstep =>
      ((stepFieldGeneratorConfig_preserves a r' b hstep).2 (hk b hb)).trans hP)
    acc r rfl h

/-- A string-keyed map fold over entries that never carry key `k` leaves
the binding of `k` unchanged. -/
theorem foldMap_lookupKey_preserved {α : Type} (dv : Yaml → Except String α)
    (entries : List (String × Yaml)) (k : String) (hk : ∀ e ∈ entries, e.1 ≠ k)
    (acc m : List (String × α)) (h : foldE (mapStep Except.ok dv) acc entries = .ok m) :
    lookupKey k m = lookupKey k acc :=
  foldE_preserves _ entries (fun a => lookupKey k a = lookupKey k acc)
    (fun a b r hb hP hstep => by
      simp only [mapStep] at hstep
      cases hd : dv b.2 with
      | error msg => simp [hd] at hstep
      | ok x =>
        simp only [hd] at hstep
        cases hstep
        rw [lookupKey_upsert_ne b.1 k x a (Ne.symm (hk b hb))]
        exact hP)
    acc m rfl h

/-- A non-integer object key under a `codes` table makes the integer-map
decode fail. -/
theorem unmarshalCodes_error (ckvs : List (String × Yaml)) (k : String) (v : Yaml)
    (hmem : (k, v) ∈ ckvs) (hbad : parseIntKey? k = none) (cur : List (Int × String)) :
    ∃ msg, unmarshalMap decodeIntKey (unmarshalString "") cur (.obj ckvs) = .error msg := by
  obtain ⟨msg, hmsg⟩ := foldE_error_of_mem (mapStep decodeIntKey (unmarshalString "")) ckvs (k, v)
    hmem (fun acc => ⟨"cannot unmarshal object key into Go value of type int",
      by simp [mapStep, decodeIntKey, hbad]⟩) cur
  exact ⟨msg, by simpa [unmarshalMap] using hmsg⟩

/-- A non-integer code key inside an `exceptions` object makes the
ExceptionsConfig decode fail. -/
theorem unmarshalExceptionsConfig_error (ekvs ckvs : List (String × Yaml)) (k : String) (v : Yaml)
    (hc : ("codes", .obj ckvs) ∈ ekvs) (hmem : (k, v) ∈ ckvs) (hbad : parseIntKey? k = none)
    (cur : ExceptionsConfig) : ∃ msg, unmarshalExceptionsConfig cur (.obj ekvs) = .error msg := by
  obtain ⟨msg, hmsg⟩ := foldE_error_of_mem stepExceptionsConfig ekvs ("codes", .obj ckvs) hc
    (fun acc => by
      obtain ⟨m, hm⟩ := unmarshalCodes_error ckvs k v hmem hbad acc.Codes
      exact ⟨m, by simp [stepExceptionsConfig, hm]⟩) cur
  exact ⟨msg, by simpa [unmarshalExceptionsConfig] using hmsg⟩

/-- A non-integer code key inside a resource override makes the
ResourceGeneratorConfig decode fail. -/
theorem unmarshalResourceGeneratorConfig_error (rkvs ekvs ckvs : List (String × Yaml))
    (k : String) (v : Yaml) (he : ("exceptions", .obj ekvs) ∈ rkvs)
    (hc : ("codes", .obj ckvs) ∈ ekvs) (hmem : (k, v) ∈ ckvs) (hbad : parseIntKey? k = none)
    (cur : ResourceGeneratorConfig) :
    ∃ msg, unmarshalResourceGeneratorConfig cur (.obj rkvs) = .error msg := by
  obtain ⟨msg, hmsg⟩ := foldE_error_of_mem stepResourceGeneratorConfig rkvs
    ("exceptions", .obj ekvs) he
    (fun acc => by
      obtain ⟨m, hm⟩ := unmarshalExceptionsConfig_error ekvs ckvs k v hc hmem hbad
        (acc.Exceptions.getD ExceptionsConfig.zero)
      exact ⟨m, by simp [stepResourceGeneratorConfig, unmarshalOptInto, hm]⟩) cur
  exact ⟨msg, by simpa [unmarshalResourceGeneratorConfig] using hmsg⟩

/-- A non-integer code key under any resource makes the top-level decode
fail. -/
theorem unmarshalGeneratorConfig_error (tops rs rkvs ekvs ckvs : List (String × Yaml))
    (rn k : String) (v : Yaml) (hr : ("resources", .obj rs) ∈ tops)
    (hrn : (rn, .obj rkvs) ∈ rs) (he : ("exceptions", .obj ekvs) ∈ rkvs)
    (hc : ("codes", .obj ckvs) ∈ ekvs) (hmem : (k, v) ∈ ckvs) (hbad : parseIntKey? k = none)
    (cur : GeneratorConfig) : ∃ msg, unmarshalGeneratorConfig cur (.obj tops) = .error msg := by
  obtain ⟨msg, hmsg⟩ := foldE_error_of_mem stepGeneratorConfig tops ("resources", .obj rs) hr
    (fun acc => by
      obtain ⟨m2, hm2⟩ := foldE_error_of_mem
        (mapStep Except.ok (unmarshalResourceGeneratorConfig ResourceGeneratorConfig.zero)) rs
        (rn, .obj rkvs) hrn
        (fun acc2 => by
          obtain ⟨m3, hm3⟩ := unmarshalResourceGeneratorConfig_error rkvs ekvs ckvs k v he hc
            hmem hbad ResourceGeneratorConfig.zero
          exact ⟨m3, by simp [mapStep, hm3]⟩) acc.Resources
      exact ⟨m2, by simp [stepGeneratorConfig, unmarshalMap, hm2]⟩) cur
  exact ⟨msg, by simpa [unmarshalGeneratorConfig] using hmsg⟩

/-- A `name_field` entry with the empty string sets the pointer to a
zero-value pointee. -/
theorem stepResource_present_nameField (acc : ResourceGeneratorConfig) :
    stepResourceGeneratorConfig acc ("name_field", .str "") = .ok { acc with NameField := some "" } :=
  rfl

/-- An `unpack_attributes_map` entry with an empty object allocates a
zero-value pointee when the pointer is nil. -/
theorem stepResource_present_unpack (acc : ResourceGeneratorConfig)
    (hacc : acc.UnpackAttributesMapConfig = none) :
    stepResourceGeneratorConfig acc ("unpack_attributes_map", .obj []) =
      .ok { acc with UnpackAttributesMapConfig := some UnpackAttributesMapConfig.zero } := by
  simp [stepResourceGeneratorConfig, unmarshalOptInto, hacc, unmarshalUnpackAttributesMapConfig, foldE]

/-- An `exceptions` entry with an empty object allocates a zero-value
pointee when the pointer is nil. -/
theorem stepResource_present_exceptions (acc : ResourceGeneratorConfig)
    (hacc : acc.Exceptions = none) :
    stepResourceGeneratorConfig acc ("exceptions", .obj []) =
      .ok { acc with Exceptions := some ExceptionsConfig.zero } := by
  simp [stepResourceGeneratorConfig, unmarshalOptInto, hacc, unmarshalExceptionsConfig, foldE]

/-- A `renames` entry with an empty object allocates a zero-value
pointee when the pointer is nil. -/
theorem stepResource_present_renames (acc : ResourceGeneratorConfig)
    (hacc : acc.Renames = none) :
    stepResourceGeneratorConfig acc ("renames", .obj []) =
      .ok { acc with Renames := some RenamesConfig.zero } := by
  simp [stepResourceGeneratorConfig, unmarshalOptInto, hacc, unmarshalRenamesConfig, foldE]

/-- A `list_operation` entry with an empty object allocates a zero-value
pointee when the pointer is nil. -/
theorem stepResource_present_listOperation (acc : ResourceGeneratorConfig)
    (hacc : acc.ListOperation = none) :
    stepResourceGeneratorConfig acc ("list_operation", .obj []) =
      .ok { acc with ListOperation := some ListOperationConfig.zero } := by
  simp [stepResourceGeneratorConfig, unmarshalOptInto, hacc, unmarshalListOperationConfig, foldE]

/-- In a fields map, an attribute key listed with an empty config object
is bound to the zero FieldGeneratorConfig. -/
theorem foldFieldsMap_present_empty (kvs₁ kvs₂ : List (String × Yaml)) (k : String)
    (m : List (String × FieldGeneratorConfig))
    (h : unmarshalMap Except.ok (unmarshalFieldGeneratorConfig FieldGeneratorConfig.zero) []
      (.obj (kvs₁ ++ (k, .obj []) :: kvs₂)) = .ok m)
    (h2 : ∀ e ∈ kvs₂, e.1 ≠ k) :
    lookupKey k m = some FieldGeneratorConfig.zero := by
  simp only [unmarshalMap] at h
  rw [foldE_append] at h
  cases hf1 : foldE (mapStep Except.ok (unmarshalFieldGeneratorConfig FieldGeneratorConfig.zero))
      [] kvs₁ with
  | error msg => simp [hf1] at h
  | ok a1 =>
    simp only [hf1, foldE] at h
    have hstep : mapStep Except.ok (unmarshalFieldGeneratorConfig FieldGeneratorConfig.zero) a1
        (k, .obj []) = .ok (upsert k FieldGeneratorConfig.zero a1) := rfl
    simp only [hstep] at h
    rw [foldMap_lookupKey_preserved _ kvs₂ k h2 _ m h, lookupKey_upsert_self]

/-- Entries with unrecognized keys leave the top-level decode state
unchanged. -/
theorem stepGeneratorConfig_skip (e : String × Yaml) (h1 : e.1 ≠ "resources")
    (h2 : e.1 ≠ "ignore") (acc : GeneratorConfig) : stepGeneratorConfig acc e = .ok acc := by
  simp [stepGeneratorConfig, h1, h2]

/-- Entries with unrecognized keys leave the IgnoreSpec decode state
unchanged. -/
theorem stepIgnoreSpec_skip (e : String × Yaml) (h1 : e.1 ≠ "operations")
    (h2 : e.1 ≠ "resource_names") (h3 : e.1 ≠ "shape_names") (acc : IgnoreSpec) :
    stepIgnoreSpec acc e = .ok acc := by
  simp [stepIgnoreSpec, h1, h2, h3]

/-- Entries with unrecognized keys leave the resource-override decode
state unchanged. -/
theorem stepResourceGeneratorConfig_skip (e : String × Yaml) (h1 : e.1 ≠ "name_field")
    (h2 : e.1 ≠ "unpack_attributes_map") (h3 : e.1 ≠ "exceptions") (h4 : e.1 ≠ "renames")
    (h5 : e.1 ≠ "list_operation") (acc : ResourceGeneratorConfig) :
    stepResourceGeneratorConfig acc e = .ok acc := by
  simp [stepResourceGeneratorConfig, h1, h2, h3, h4, h5]

/-- Entries with unrecognized keys leave the attributes-map decode state
unchanged. -/
theorem stepUnpackAttributesMapConfig_skip (e : String × Yaml) (h1 : e.1 ≠ "fields")
    (acc : UnpackAttributesMapConfig) : stepUnpackAttributesMapConfig acc e = .ok acc := by
  simp [stepUnpackAttributesMapConfig, h1]

/-- Entries with unrecognized keys leave the attribute-config decode
state unchanged. -/
theorem stepFieldGeneratorConfig_skip (e : String × Yaml) (h1 : e.1 ≠ "is_read_only")
    (h2 : e.1 ≠ "contains_owner_account_id") (acc : FieldGeneratorConfig) :
    stepFieldGeneratorConfig acc e = .ok acc := by
  simp [stepFieldGeneratorConfig, h1, h2]

/-- Entries with unrecognized keys leave the exceptions decode state
unchanged. -/
theorem stepExceptionsConfig_skip (e : String × Yaml) (h1 : e.1 ≠ "codes")
    (acc : ExceptionsConfig) : stepExceptionsConfig acc e = .ok acc := by
  simp [stepExceptionsConfig, h1]

/-- Entries with unrecognized keys leave the per-operation renames
decode state unchanged. -/
theorem stepOperationRenamesConfig_skip (e : String × Yaml) (h1 : e.1 ≠ "input_fields")
    (h2 : e.1 ≠ "output_fields") (acc : OperationRenamesConfig) :
    stepOperationRenamesConfig acc e = .ok acc := by
  simp [stepOperationRenamesConfig, h1, h2]

/-- Entries with unrecognized keys leave the renames decode state
unchanged. -/
theorem stepRenamesConfig_skip (e : String × Yaml) (h1 : e.1 ≠ "operations")
    (acc : RenamesConfig) : stepRenamesConfig acc e = .ok acc := by
  simp [stepRenamesConfig, h1]

/-- Entries with unrecognized keys leave the list-operation decode state
unchanged. -/
theorem stepListOperationConfig_skip (e : String × Yaml) (h1 : e.1 ≠ "match_fields")
    (acc : ListOperationConfig) : stepListOperationConfig acc e = .ok acc := by
  simp [stepListOperationConfig, h1]

/-- A resource override whose sole `name_field` entry carries the empty
string loads with NameField pointing at the zero string. -/
theorem unmResource_present_nameField (kvs₁ kvs₂ : List (String × Yaml)) (rc : ResourceGeneratorConfig)
    (h : unmarshalResourceGeneratorConfig ResourceGeneratorConfig.zero
      (.obj (kvs₁ ++ ("name_field", .str "") :: kvs₂)) = .ok rc)
    (h2 : ∀ e ∈ kvs₂, e.1 ≠ "name_field") : rc.NameField = some "" := by
  simp only [unmarshalResourceGeneratorConfig] at h
  rw [foldE_append] at h
  cases hf1 : foldE stepResourceGeneratorConfig ResourceGeneratorConfig.zero kvs₁ with
  | error msg => simp [hf1] at h
  | ok a1 =>
    simp only [hf1, foldE, stepResource_present_nameField a1] at h
    exact foldResource_NameField kvs₂ h2 _ rc h

/-- A resource override whose sole `unpack_attributes_map` entry is the
empty object loads with a non-nil pointer to the zero sub-config. -/
theorem unmResource_present_unpack (kvs₁ kvs₂ : List (String × Yaml)) (rc : ResourceGeneratorConfig)
    (h : unmarshalResourceGeneratorConfig ResourceGeneratorConfig.zero
      (.obj (kvs₁ ++ ("unpack_attributes_map", .obj []) :: kvs₂)) = .ok rc)
    (h1 : ∀ e ∈ kvs₁, e.1 ≠ "unpack_attributes_map")
    (h2 : ∀ e ∈ kvs₂, e.1 ≠ "unpack_attributes_map") :
    rc.UnpackAttributesMapConfig = some UnpackAttributesMapConfig.zero := by
  simp only [unmarshalResourceGeneratorConfig] at h
  rw [foldE_append] at h
  cases hf1 : foldE stepResourceGeneratorConfig ResourceGeneratorConfig.zero kvs₁ with
  | error msg => simp [hf1] at h
  | ok a1 =>
    have ha1 : a1.UnpackAttributesMapConfig = none := foldResource_Unpack kvs₁ h1 _ a1 hf1
    simp only [hf1, foldE, stepResource_present_unpack a1 ha1] at h
    exact foldResource_Unpack kvs₂ h2 _ rc h

/-- A resource override whose sole `exceptions` entry is the empty
object loads with a non-nil pointer to the zero sub-config. -/
theorem unmResource_present_exceptions (kvs₁ kvs₂ : List (String × Yaml)) (rc : ResourceGeneratorConfig)
    (h : unmarshalResourceGeneratorConfig ResourceGeneratorConfig.zero
      (.obj (kvs₁ ++ ("exceptions", .obj []) :: kvs₂)) = .ok rc)
    (h1 : ∀ e ∈ kvs₁, e.1 ≠ "exceptions") (h2 : ∀ e ∈ kvs₂, e.1 ≠ "exceptions") :
    rc.Exceptions = some ExceptionsConfig.zero := by
  simp only [unmarshalResourceGeneratorConfig] at h
  rw [foldE_append] at h
  cases hf1 : foldE stepResourceGeneratorConfig ResourceGeneratorConfig.zero kvs₁ with
  | error msg => simp [hf1] at h
  | ok a1 =>
    have ha1 : a1.Exceptions = none := foldResource_Exceptions kvs₁ h1 _ a1 hf1
    simp only [hf1, foldE, stepResource_present_exceptions a1 ha1] at h
    exact foldResource_Exceptions kvs₂ h2 _ rc h

/-- A resource override whose sole `renames` entry is the empty object
loads with a non-nil pointer to the zero sub-config. -/
theorem unmResource_present_renames (kvs₁ kvs₂ : List (String × Yaml)) (rc : ResourceGeneratorConfig)
    (h : unmarshalResourceGeneratorConfig ResourceGeneratorConfig.zero
      (.obj (kvs₁ ++ ("renames", .obj []) :: kvs₂)) = .ok rc)
    (h1 : ∀ e ∈ kvs₁, e.1 ≠ "renames") (h2 : ∀ e ∈ kvs₂, e.1 ≠ "renames") :
    rc.Renames = some RenamesConfig.zero := by
  simp only [unmarshalResourceGeneratorConfig] at h
  rw [foldE_append] at h
  cases hf1 : foldE stepResourceGeneratorConfig ResourceGeneratorConfig.zero kvs₁ with
  | error msg => simp [hf1] at h
  | ok a1 =>
    have ha1 : a1.Renames = none := foldResource_Renames kvs₁ h1 _ a1 hf1
    simp only [hf1, foldE, stepResource_present_renames a1 ha1] at h
    exact foldResource_Renames kvs₂ h2 _ rc h

/-- A resource override whose sole `list_operation` entry is the empty
object loads with a non-nil pointer to the zero sub-config. -/
theorem unmResource_present_listOperation (kvs₁ kvs₂ : List (String × Yaml)) (rc : ResourceGeneratorConfig)
    (h : unmarshalResourceGeneratorConfig ResourceGeneratorConfig.zero
      (.obj (kvs₁ ++ ("list_operation", .obj []) :: kvs₂)) = .ok rc)
    (h1 : ∀ e ∈ kvs₁, e.1 ≠ "list_operation") (h2 : ∀ e ∈ kvs₂, e.1 ≠ "list_operation") :
    rc.ListOperation = some ListOperationConfig.zero := by
  simp only [unmarshalResourceGeneratorConfig] at h
  rw [foldE_append] at h
  cases hf1 : foldE stepResourceGeneratorConfig ResourceGeneratorConfig.zero kvs₁ with
  | error msg => simp [hf1] at h
  | ok a1 =>
    have ha1 : a1.ListOperation = none := foldResource_ListOperation kvs₁ h1 _ a1 hf1
    simp only [hf1, foldE, stepResource_present_listOperation a1 ha1] at h
    exact foldResource_ListOperation kvs₂ h2 _ rc h

/-! ### The claims -/

/-- C1: For every path that does not name a readable file,
NewGeneratorConfig returns an I/O error and no config value; the result
is an error alternative carrying no GeneratorConfig, so no partial or
best-effort config is returned on this failure (the Except result type
returns either an error or a config, never both). -/
theorem C1_io_error_on_unreadable_path (fs : String → Option Yaml) (path : String)
    (h : fs path = none) : NewGeneratorConfig fs path = .error (.ioError path) := by
  simp [NewGeneratorConfig, h]

theorem C1_witness :
    NewGeneratorConfig (fun _ => none) "missing.yaml" = .error (.ioError "missing.yaml") :=
  C1_io_error_on_unreadable_path (fun _ => none) "missing.yaml" rfl

/-- C2: Loading an empty document (an empty file parses to the null
document) succeeds with no error and returns a GeneratorConfig whose
Resources map is empty and whose Ignore field is the zero-value
IgnoreSpec with all three string sets empty. -/
theorem C2_empty_document (fs : String → Option Yaml) (path : String)
    (h : fs path = some .null) :
    NewGeneratorConfig fs path = .ok ⟨[], ⟨[], [], []⟩⟩ := by
  simp only [NewGeneratorConfig, h]
  rfl

theorem C2_witness :
    NewGeneratorConfig (fun p => if p = "empty.yaml" then some .null else none) "empty.yaml" =
      .ok ⟨[], ⟨[], [], []⟩⟩ :=
  C2_empty_document _ "empty.yaml" rfl

/-- C3: For every document containing a non-integer key under a
resource's exceptions codes table, NewGeneratorConfig fails with a
schema/parse error and returns no config value. -/
theorem C3_nonint_code_key_schema_error (fs : String → Option Yaml) (path : String)
    (tops rs rkvs ekvs ckvs : List (String × Yaml)) (rn k : String) (v : Yaml)
    (hfs : fs path = some (.obj tops))
    (hr : ("resources", .obj rs) ∈ tops) (hrn : (rn, .obj rkvs) ∈ rs)
    (he : ("exceptions", .obj ekvs) ∈ rkvs) (hc : ("codes", .obj ckvs) ∈ ekvs)
    (hmem : (k, v) ∈ ckvs) (hbad : parseIntKey? k = none) :
    ∃ msg, NewGeneratorConfig fs path = .error (.schemaError msg) := by
  obtain ⟨msg, hmsg⟩ := unmarshalGeneratorConfig_error tops rs rkvs ekvs ckvs rn k v hr hrn
    he hc hmem hbad GeneratorConfig.zero
  exact ⟨msg, by simp [NewGeneratorConfig, hfs, hmsg]⟩

theorem C3_witness :
    ∃ msg, NewGeneratorConfig (fun _ => some (.obj [("resources", .obj [("Topic", .obj
      [("exceptions", .obj [("codes", .obj [("abc", .str "NotFound")])])])])]))
      "config.yaml" = .error (.schemaError msg) :=
  C3_nonint_code_key_schema_error _ "config.yaml"
    [("resources", .obj [("Topic", .obj [("exceptions", .obj [("codes", .obj
      [("abc", .str "NotFound")])])])])]
    [("Topic", .obj [("exceptions", .obj [("codes", .obj [("abc", .str "NotFound")])])])]
    [("exceptions", .obj [("codes", .obj [("abc", .str "NotFound")])])]
    [("codes", .obj [("abc", .str "NotFound")])]
    [("abc", .str "NotFound")]
    "Topic" "abc" (.str "NotFound") rfl (by simp) (by simp) (by simp) (by simp) (by simp) rfl

/-- C4: For every populated GeneratorConfig value (well-formed in the
sense that every association list of the tree has the pairwise-distinct
keys a real Go map has), serializing it to the document format and
loading the result back yields a GeneratorConfig equal to the original
(round-trip law). -/
theorem C4_roundtrip (gc : GeneratorConfig) (path : String) (h : gc.WF) :
    NewGeneratorConfig (fun _ => some (marshalGeneratorConfig gc)) path = .ok gc := by
  simp [NewGeneratorConfig, roundtripGeneratorConfig gc h]

theorem C4_witness :
    (⟨[("Topic", ⟨some "Name",
        some ⟨[("Policy", ⟨false, false⟩), ("Owner", ⟨true, true⟩)]⟩,
        some ⟨[((404 : Int), "NotFound")]⟩,
        some ⟨[("CreateTopic", some ⟨[("Name", "TopicName")], []⟩), ("DeleteTopic", none)]⟩,
        some ⟨["TopicArn"]⟩⟩)],
      ⟨["Op1"], ["R1"], ["S1"]⟩⟩ : GeneratorConfig).WF ∧
    NewGeneratorConfig (fun _ => some (marshalGeneratorConfig
      ⟨[("Topic", ⟨some "Name",
        some ⟨[("Policy", ⟨false, false⟩), ("Owner", ⟨true, true⟩)]⟩,
        some ⟨[((404 : Int), "NotFound")]⟩,
        some ⟨[("CreateTopic", some ⟨[("Name", "TopicName")], []⟩), ("DeleteTopic", none)]⟩,
        some ⟨["TopicArn"]⟩⟩)],
      ⟨["Op1"], ["R1"], ["S1"]⟩⟩)) "config.yaml" =
      .ok ⟨[("Topic", ⟨some "Name",
        some ⟨[("Policy", ⟨false, false⟩), ("Owner", ⟨true, true⟩)]⟩,
        some ⟨[((404 : Int), "NotFound")]⟩,
        some ⟨[("CreateTopic", some ⟨[("Name", "TopicName")], []⟩), ("DeleteTopic", none)]⟩,
        some ⟨["TopicArn"]⟩⟩)],
      ⟨["Op1"], ["R1"], ["S1"]⟩⟩ :=
  ⟨by decide, C4_roundtrip _ "config.yaml" (by decide)⟩

/-- C5: For every document in which a key is missing, the loaded
GeneratorConfig has exactly the zero value for the corresponding field:
an empty Resources map and zero IgnoreSpec at the top level, and a nil
pointer for each optional resource sub-config; loading injects no other
defaults. -/
theorem C5_missing_keys_zero_values :
    (∀ (tops : List (String × Yaml)) (gc : GeneratorConfig),
      unmarshalGeneratorConfig GeneratorConfig.zero (.obj tops) = .ok gc →
      (lookupKey "resources" tops = none → gc.Resources = []) ∧
      (lookupKey "ignore" tops = none → gc.Ignore = IgnoreSpec.zero)) ∧
    (∀ (rkvs : List (String × Yaml)) (rc : ResourceGeneratorConfig),
      unmarshalResourceGeneratorConfig ResourceGeneratorConfig.zero (.obj rkvs) = .ok rc →
      (lookupKey "name_field" rkvs = none → rc.NameField = none) ∧
      (lookupKey "unpack_attributes_map" rkvs = none → rc.UnpackAttributesMapConfig = none) ∧
      (lookupKey "exceptions" rkvs = none → rc.Exceptions = none) ∧
      (lookupKey "renames" rkvs = none → rc.Renames = none) ∧
      (lookupKey "list_operation" rkvs = none → rc.ListOperation = none)) := by
  constructor
  · intro tops gc h
    simp only [unmarshalGeneratorConfig] at h
    exact ⟨fun hk => foldGC_Resources tops ((lookupKey_eq_none _ _).mp hk) _ gc h,
      fun hk => foldGC_Ignore tops ((lookupKey_eq_none _ _).mp hk) _ gc h⟩
  · intro rkvs rc h
    simp only [unmarshalResourceGeneratorConfig] at h
    exact ⟨fun hk => foldResource_NameField rkvs ((lookupKey_eq_none _ _).mp hk) _ rc h,
      fun hk => foldResource_Unpack rkvs ((lookupKey_eq_none _ _).mp hk) _ rc h,
      fun hk => foldResource_Exceptions rkvs ((lookupKey_eq_none _ _).mp hk) _ rc h,
      fun hk => foldResource_Renames rkvs ((lookupKey_eq_none _ _).mp hk) _ rc h,
      fun hk => foldResource_ListOperation rkvs ((lookupKey_eq_none _ _).mp hk) _ rc h⟩

theorem C5_witness :
    (⟨[], ⟨["Op1"], [], []⟩⟩ : GeneratorConfig).Resources = [] ∧
    (⟨some "Name", none, none, none, none⟩ : ResourceGeneratorConfig).Exceptions = none :=
  ⟨(C5_missing_keys_zero_values.1 [("ignore", .obj [("operations", .arr [.str "Op1"])])]
      ⟨[], ⟨["Op1"], [], []⟩⟩ rfl).1 rfl,
   (C5_missing_keys_zero_values.2 [("name_field", .str "Name")]
      ⟨some "Name", none, none, none, none⟩ rfl).2.2.1 rfl⟩

/-- C6: A renames table with two distinct operation IDs loads both
renames independently: the resulting Operations map binds each operation
ID to exactly the OperationRenamesConfig decoded from its own entry, and
looking up each ID returns its own table, so the rename table of one
operation never affects the entry of an operation it does not name —
even when both rename the same wire field differently. -/
theorem C6_renames_independent (op1 op2 : String) (v1 v2 : Yaml)
    (o1 o2 : Option OperationRenamesConfig) (hne : op1 ≠ op2)
    (h1 : unmarshalOptInto OperationRenamesConfig.zero unmarshalOperationRenamesConfig none v1 = .ok o1)
    (h2 : unmarshalOptInto OperationRenamesConfig.zero unmarshalOperationRenamesConfig none v2 = .ok o2) :
    unmarshalRenamesConfig RenamesConfig.zero
        (.obj [("operations", .obj [(op1, v1), (op2, v2)])]) = .ok ⟨[(op1, o1), (op2, o2)]⟩ ∧
    lookupKey op1 [(op1, o1), (op2, o2)] = some o1 ∧
    lookupKey op2 [(op1, o1), (op2, o2)] = some o2 := by
  refine ⟨?_, ?_, ?_⟩
  · simp [unmarshalRenamesConfig, foldE, stepRenamesConfig, unmarshalMap, mapStep,
      RenamesConfig.zero, h1, h2, upsert, hne]
  · simp [lookupKey]
  · simp [lookupKey, hne]

theorem C6_witness :
    unmarshalRenamesConfig RenamesConfig.zero (.obj [("operations", .obj
      [("CreateTopic", .obj [("input_fields", .obj [("Name", .str "TopicName")])]),
       ("DeleteTopic", .obj [("input_fields", .obj [("Name", .str "TopicArn")])])])]) =
      .ok ⟨[("CreateTopic", some ⟨[("Name", "TopicName")], []⟩),
            ("DeleteTopic", some ⟨[("Name", "TopicArn")], []⟩)]⟩ ∧
    lookupKey "CreateTopic"
      [("CreateTopic", (some ⟨[("Name", "TopicName")], []⟩ : Option OperationRenamesConfig)),
       ("DeleteTopic", some ⟨[("Name", "TopicArn")], []⟩)] = some (some ⟨[("Name", "TopicName")], []⟩) ∧
    lookupKey "DeleteTopic"
      [("CreateTopic", (some ⟨[("Name", "TopicName")], []⟩ : Option OperationRenamesConfig)),
       ("DeleteTopic", some ⟨[("Name", "TopicArn")], []⟩)] = some (some ⟨[("Name", "TopicArn")], []⟩) :=
  C6_renames_independent "CreateTopic" "DeleteTopic"
    (.obj [("input_fields", .obj [("Name", .str "TopicName")])])
    (.obj [("input_fields", .obj [("Name", .str "TopicArn")])])
    (some ⟨[("Name", "TopicName")], []⟩) (some ⟨[("Name", "TopicArn")], []⟩)
    (by decide) rfl rfl

/-- C7: For every type-well-formed document, loading performs no
field-level semantic validation and succeeds: in particular a document
with many-to-one rename collisions, with several fields flagged as
containing the owner account ID in one resource's attributes map, or
with resource names unknown to any API description is still type-well-
formed and loads with no error. -/
theorem C7_well_typed_loads (fs : String → Option Yaml) (path : String) (d : Yaml)
    (hfs : fs path = some d) (hwt : wtGeneratorConfig d = true) :
    ∃ gc, NewGeneratorConfig fs path = .ok gc := by
  obtain ⟨gc, hgc⟩ := unmarshalGeneratorConfig_ok d hwt GeneratorConfig.zero
  exact ⟨gc, by simp [NewGeneratorConfig, hfs, hgc]⟩

theorem C7_witness :
    wtGeneratorConfig (.obj [("resources", .obj [("NoSuchResourceInAnyAPI", .obj
      [("unpack_attributes_map", .obj [("fields", .obj
        [("F1", .obj [("contains_owner_account_id", .bool true)]),
         ("F2", .obj [("contains_owner_account_id", .bool true)])])]),
       ("renames", .obj [("operations", .obj [("Op", .obj [("input_fields", .obj
        [("A", .str "X"), ("B", .str "X")])])])])])])]) = true ∧
    ∃ gc, NewGeneratorConfig (fun _ => some (.obj [("resources", .obj
      [("NoSuchResourceInAnyAPI", .obj
      [("unpack_attributes_map", .obj [("fields", .obj
        [("F1", .obj [("contains_owner_account_id", .bool true)]),
         ("F2", .obj [("contains_owner_account_id", .bool true)])])]),
       ("renames", .obj [("operations", .obj [("Op", .obj [("input_fields", .obj
        [("A", .str "X"), ("B", .str "X")])])])])])])])) "config.yaml" = .ok gc :=
  ⟨by decide, C7_well_typed_loads _ "config.yaml" _ rfl (by decide)⟩

/-- C8: Loading distinguishes an absent optional sub-config from a
present-but-empty one: for a resource override decoded from the zero
value, a missing optional key leaves the corresponding pointer nil,
while the key present with an empty object (empty string for
`name_field`) and not bound elsewhere in the object yields a non-nil
pointer to the zero-value sub-config. -/
theorem C8_absent_vs_present_empty :
    (∀ (rkvs : List (String × Yaml)) (rc : ResourceGeneratorConfig),
      unmarshalResourceGeneratorConfig ResourceGeneratorConfig.zero (.obj rkvs) = .ok rc →
      (lookupKey "name_field" rkvs = none → rc.NameField = none) ∧
      (lookupKey "unpack_attributes_map" rkvs = none → rc.UnpackAttributesMapConfig = none) ∧
      (lookupKey "exceptions" rkvs = none → rc.Exceptions = none) ∧
      (lookupKey "renames" rkvs = none → rc.Renames = none) ∧
      (lookupKey "list_operation" rkvs = none → rc.ListOperation = none)) ∧
    (∀ (kvs₁ kvs₂ : List (String × Yaml)) (rc : ResourceGeneratorConfig),
      unmarshalResourceGeneratorConfig ResourceGeneratorConfig.zero
        (.obj (kvs₁ ++ ("name_field", .str "") :: kvs₂)) = .ok rc →
      (∀ e ∈ kvs₂, e.1 ≠ "name_field") → rc.NameField = some "") ∧
    (∀ (kvs₁ kvs₂ : List (String × Yaml)) (rc : ResourceGeneratorConfig),
      unmarshalResourceGeneratorConfig ResourceGeneratorConfig.zero
        (.obj (kvs₁ ++ ("unpack_attributes_map", .obj []) :: kvs₂)) = .ok rc →
      (∀ e ∈ kvs₁, e.1 ≠ "unpack_attributes_map") → (∀ e ∈ kvs₂, e.1 ≠ "unpack_attributes_map") →
      rc.UnpackAttributesMapConfig = some UnpackAttributesMapConfig.zero) ∧
    (∀ (kvs₁ kvs₂ : List (String × Yaml)) (rc : ResourceGeneratorConfig),
      unmarshalResourceGeneratorConfig ResourceGeneratorConfig.zero
        (.obj (kvs₁ ++ ("exceptions", .obj []) :: kvs₂)) = .ok rc →
      (∀ e ∈ kvs₁, e.1 ≠ "exceptions") → (∀ e ∈ kvs₂, e.1 ≠ "exceptions") →
      rc.Exceptions = some ExceptionsConfig.zero) ∧
    (∀ (kvs₁ kvs₂ : List (String × Yaml)) (rc : ResourceGeneratorConfig),
      unmarshalResourceGeneratorConfig ResourceGeneratorConfig.zero
        (.obj (kvs₁ ++ ("renames", .obj []) :: kvs₂)) = .ok rc →
      (∀ e ∈ kvs₁, e.1 ≠ "renames") → (∀ e ∈ kvs₂, e.1 ≠ "renames") →
      rc.Renames = some RenamesConfig.zero) ∧
    (∀ (kvs₁ kvs₂ : List (String × Yaml)) (rc : ResourceGeneratorConfig),
      unmarshalResourceGeneratorConfig ResourceGeneratorConfig.zero
        (.obj (kvs₁ ++ ("list_operation", .obj []) :: kvs₂)) = .ok rc →
      (∀ e ∈ kvs₁, e.1 ≠ "list_operation") → (∀ e ∈ kvs₂, e.1 ≠ "list_operation") →
      rc.ListOperation = some ListOperationConfig.zero) := by
  refine ⟨?_, ?_, ?_, ?_, ?_, ?_⟩
  · intro rkvs rc h
    simp only [unmarshalResourceGeneratorConfig] at h
    exact ⟨fun hk => foldResource_NameField rkvs ((lookupKey_eq_none _ _).mp hk) _ rc h,
      fun hk => foldResource_Unpack rkvs ((lookupKey_eq_none _ _).mp hk) _ rc h,
      fun hk => foldResource_Exceptions rkvs ((lookupKey_eq_none _ _).mp hk) _ rc h,
      fun hk => foldResource_Renames rkvs ((lookupKey_eq_none _ _).mp hk) _ rc h,
      fun hk => foldResource_ListOperation rkvs ((lookupKey_eq_none _ _).mp hk) _ rc h⟩
  · exact fun kvs₁ kvs₂ rc h h2 => unmResource_present_nameField kvs₁ kvs₂ rc h h2
  · exact fun kvs₁ kvs₂ rc h h1 h2 => unmResource_present_unpack kvs₁ kvs₂ rc h h1 h2
  · exact fun kvs₁ kvs₂ rc h h1 h2 => unmResource_present_exceptions kvs₁ kvs₂ rc h h1 h2
  · exact fun kvs₁ kvs₂ rc h h1 h2 => unmResource_present_renames kvs₁ kvs₂ rc h h1 h2
  · exact fun kvs₁ kvs₂ rc h h1 h2 => unmResource_present_listOperation kvs₁ kvs₂ rc h h1 h2

theorem C8_witness :
    (⟨some "Name", none, none, none, none⟩ : ResourceGeneratorConfig).Exceptions = none ∧
    (⟨none, none, some ⟨[]⟩, none, none⟩ : ResourceGeneratorConfig).Exceptions =
      some ExceptionsConfig.zero :=
  ⟨(C8_absent_vs_present_empty.1 [("name_field", .str "Name")]
      ⟨some "Name", none, none, none, none⟩ rfl).2.2.1 rfl,
   C8_absent_vs_present_empty.2.2.2.1 [] [] ⟨none, none, some ⟨[]⟩, none, none⟩ rfl
     (by simp) (by simp)⟩

/-- C9: For every document, inserting an entry with an unrecognized key
anywhere at the top level or inside any sub-config object leaves the
decode result exactly as if the entry were absent: unknown keys are
silently ignored and cause no error, at every level of the schema. -/
theorem C9_unknown_keys_ignored :
    (∀ (k : String) (v : Yaml) (cur : GeneratorConfig) (kvs₁ kvs₂ : List (String × Yaml)),
      k ≠ "resources" → k ≠ "ignore" →
      unmarshalGeneratorConfig cur (.obj (kvs₁ ++ (k, v) :: kvs₂)) =
        unmarshalGeneratorConfig cur (.obj (kvs₁ ++ kvs₂))) ∧
    (∀ (k : String) (v : Yaml) (cur : IgnoreSpec) (kvs₁ kvs₂ : List (String × Yaml)),
      k ≠ "operations" → k ≠ "resource_names" → k ≠ "shape_names" →
      unmarshalIgnoreSpec cur (.obj (kvs₁ ++ (k, v) :: kvs₂)) =
        unmarshalIgnoreSpec cur (.obj (kvs₁ ++ kvs₂))) ∧
    (∀ (k : String) (v : Yaml) (cur : ResourceGeneratorConfig) (kvs₁ kvs₂ : List (String × Yaml)),
      k ≠ "name_field" → k ≠ "unpack_attributes_map" → k ≠ "exceptions" → k ≠ "renames" →
      k ≠ "list_operation" →
      unmarshalResourceGeneratorConfig cur (.obj (kvs₁ ++ (k, v) :: kvs₂)) =
        unmarshalResourceGeneratorConfig cur (.obj (kvs₁ ++ kvs₂))) ∧
    (∀ (k : String) (v : Yaml) (cur : UnpackAttributesMapConfig) (kvs₁ kvs₂ : List (String × Yaml)),
      k ≠ "fields" →
      unmarshalUnpackAttributesMapConfig cur (.obj (kvs₁ ++ (k, v) :: kvs₂)) =
        unmarshalUnpackAttributesMapConfig cur (.obj (kvs₁ ++ kvs₂))) ∧
    (∀ (k : String) (v : Yaml) (cur : FieldGeneratorConfig) (kvs₁ kvs₂ : List (String × Yaml)),
      k ≠ "is_read_only" → k ≠ "contains_owner_account_id" →
      unmarshalFieldGeneratorConfig cur (.obj (kvs₁ ++ (k, v) :: kvs₂)) =
        unmarshalFieldGeneratorConfig cur (.obj (kvs₁ ++ kvs₂))) ∧
    (∀ (k : String) (v : Yaml) (cur : ExceptionsConfig) (kvs₁ kvs₂ : List (String × Yaml)),
      k ≠ "codes" →
      unmarshalExceptionsConfig cur (.obj (kvs₁ ++ (k, v) :: kvs₂)) =
        unmarshalExceptionsConfig cur (.obj (kvs₁ ++ kvs₂))) ∧
    (∀ (k : String) (v : Yaml) (cur : OperationRenamesConfig) (kvs₁ kvs₂ : List (String × Yaml)),
      k ≠ "input_fields" → k ≠ "output_fields" →
      unmarshalOperationRenamesConfig cur (.obj (kvs₁ ++ (k, v) :: kvs₂)) =
        unmarshalOperationRenamesConfig cur (.obj (kvs₁ ++ kvs₂))) ∧
    (∀ (k : String) (v : Yaml) (cur : RenamesConfig) (kvs₁ kvs₂ : List (String × Yaml)),
      k ≠ "operations" →
      unmarshalRenamesConfig cur (.obj (kvs₁ ++ (k, v) :: kvs₂)) =
        unmarshalRenamesConfig cur (.obj (kvs₁ ++ kvs₂))) ∧
    (∀ (k : String) (v : Yaml) (cur : ListOperationConfig) (kvs₁ kvs₂ : List (String × Yaml)),
      k ≠ "match_fields" →
      unmarshalListOperationConfig cur (.obj (kvs₁ ++ (k, v) :: kvs₂)) =
        unmarshalListOperationConfig cur (.obj (kvs₁ ++ kvs₂))) := by
  refine ⟨?_, ?_, ?_, ?_, ?_, ?_, ?_, ?_, ?_⟩
  · intro k v cur kvs₁ kvs₂ h1 h2
    simp only [unmarshalGeneratorConfig]
    exact foldE_skip_middle _ (k, v) (stepGeneratorConfig_skip (k, v) h1 h2) kvs₁ kvs₂ cur
  · intro k v cur kvs₁ kvs₂ h1 h2 h3
    simp only [unmarshalIgnoreSpec]
    exact foldE_skip_middle _ (k, v) (stepIgnoreSpec_skip (k, v) h1 h2 h3) kvs₁ kvs₂ cur
  · intro k v cur kvs₁ kvs₂ h1 h2 h3 h4 h5
    simp only [unmarshalResourceGeneratorConfig]
    exact foldE_skip_middle _ (k, v)
      (stepResourceGeneratorConfig_skip (k, v) h1 h2 h3 h4 h5) kvs₁ kvs₂ cur
  · intro k v cur kvs₁ kvs₂ h1
    simp only [unmarshalUnpackAttributesMapConfig]
    exact foldE_skip_middle _ (k, v) (stepUnpackAttributesMapConfig_skip (k, v) h1) kvs₁ kvs₂ cur
  · intro k v cur kvs₁ kvs₂ h1 h2
    simp only [unmarshalFieldGeneratorConfig]
    exact foldE_skip_middle _ (k, v) (stepFieldGeneratorConfig_skip (k, v) h1 h2) kvs₁ kvs₂ cur
  · intro k v cur kvs₁ kvs₂ h1
    simp only [unmarshalExceptionsConfig]
    exact foldE_skip_middle _ (k, v) (stepExceptionsConfig_skip (k, v) h1) kvs₁ kvs₂ cur
  · intro k v cur kvs₁ kvs₂ h1 h2
    simp only [unmarshalOperationRenamesConfig]
    exact foldE_skip_middle _ (k, v) (stepOperationRenamesConfig_skip (k, v) h1 h2) kvs₁ kvs₂ cur
  · intro k v cur kvs₁ kvs₂ h1
    simp only [unmarshalRenamesConfig]
    exact foldE_skip_middle _ (k, v) (stepRenamesConfig_skip (k, v) h1) kvs₁ kvs₂ cur
  · intro k v cur kvs₁ kvs₂ h1
    simp only [unmarshalListOperationConfig]
    exact foldE_skip_middle _ (k, v) (stepListOperationConfig_skip (k, v) h1) kvs₁ kvs₂ cur

theorem C9_witness :
    unmarshalGeneratorConfig GeneratorConfig.zero
      (.obj ([] ++ ("unknown_key", .int 5) :: [("ignore", .null)])) =
      unmarshalGeneratorConfig GeneratorConfig.zero (.obj ([] ++ [("ignore", .null)])) :=
  C9_unknown_keys_ignored.1 "unknown_key" (.int 5) GeneratorConfig.zero []
    [("ignore", .null)] (by decide) (by decide)

/-- C10: An attribute key listed under `fields` whose entry omits
`is_read_only` or `contains_owner_account_id` gets false for the omitted
flag; in particular an attribute listed with an empty config object is
bound to the zero FieldGeneratorConfig (read-write, not owner-account-
id), which is distinct from leaving the key out of the map, in which
case the loaded map has no binding for it at all. -/
theorem C10_omitted_flags_false :
    (∀ (kvs : List (String × Yaml)) (f : FieldGeneratorConfig),
      unmarshalFieldGeneratorConfig FieldGeneratorConfig.zero (.obj kvs) = .ok f →
      (lookupKey "is_read_only" kvs = none → f.IsReadOnly = false) ∧
      (lookupKey "contains_owner_account_id" kvs = none → f.ContainsOwnerAccountID = false)) ∧
    (∀ (kvs₁ kvs₂ : List (String × Yaml)) (k : String) (m : List (String × FieldGeneratorConfig)),
      unmarshalMap Except.ok (unmarshalFieldGeneratorConfig FieldGeneratorConfig.zero) []
        (.obj (kvs₁ ++ (k, .obj []) :: kvs₂)) = .ok m →
      (∀ e ∈ kvs₂, e.1 ≠ k) → lookupKey k m = some FieldGeneratorConfig.zero) ∧
    (∀ (kvs : List (String × Yaml)) (k : String) (m : List (String × FieldGeneratorConfig)),
      unmarshalMap Except.ok (unmarshalFieldGeneratorConfig FieldGeneratorConfig.zero) []
        (.obj kvs) = .ok m →
      (∀ e ∈ kvs, e.1 ≠ k) → lookupKey k m = none) := by
  refine ⟨?_, ?_, ?_⟩
  · intro kvs f h
    simp only [unmarshalFieldGeneratorConfig] at h
    exact ⟨fun hk => foldField_IsReadOnly kvs ((lookupKey_eq_none _ _).mp hk) _ f h,
      fun hk => foldField_Owner kvs ((lookupKey_eq_none _ _).mp hk) _ f h⟩
  · exact fun kvs₁ kvs₂ k m h h2 => foldFieldsMap_present_empty kvs₁ kvs₂ k m h h2
  · intro kvs k m h hk
    simp only [unmarshalMap] at h
    exact (foldMap_lookupKey_preserved _ kvs k hk [] m h).trans rfl

theorem C10_witness :
    (⟨true, false⟩ : FieldGeneratorConfig).ContainsOwnerAccountID = false ∧
    lookupKey "Policy" [("Policy", FieldGeneratorConfig.zero), ("Owner",
      (⟨true, false⟩ : FieldGeneratorConfig))] = some FieldGeneratorConfig.zero ∧
    lookupKey "SubscriptionsDeleted" [("Policy", FieldGeneratorConfig.zero)] =
      (none : Option FieldGeneratorConfig) :=
  ⟨(C10_omitted_flags_false.1 [("is_read_only", .bool true)] ⟨true, false⟩ rfl).2 rfl,
   C10_omitted_flags_false.2.1 [] [("Owner", .obj [("is_read_only", .bool true)])] "Policy"
     [("Policy", FieldGeneratorConfig.zero), ("Owner", ⟨true, false⟩)] rfl (by decide),
   C10_omitted_flags_false.2.2 [("Policy", .obj [])] "SubscriptionsDeleted"
     [("Policy", FieldGeneratorConfig.zero)] rfl (by decide)⟩
